import Mathlib

set_option maxRecDepth 4000

/-!
# Verification of the samply binary decoder core

A shallow embedding of the perf ring-buffer record decoder
(`src/perf_event.rs`) and the ETW `TRACE_EVENT_INFO` schema decoder
(`src/etw-reader/src/etw_types.rs`), together with proofs of the
testable properties of the specification.

Conventions of the embedding:
* A byte buffer is a `List Nat` (each entry is one byte of the OS-supplied
  buffer; genuine buffers have entries `< 256`).
* Machine integers are `Nat` (with explicit `% 2^w` where overflow matters);
  Rust `i32` values are `Int`.
* Rust code that can panic (`unwrap`, `assert!`, out-of-bounds slicing) is
  modelled with `Option`: `none` models a Rust panic, `some` a normal return.
* A Rust `String` is represented by the list of its UTF-8 bytes.
-/

namespace Samply

/-! ## Perf ABI constants

Modelled from the spec: `src/perf_event_raw.rs` is not part of the sources
under inspection (only its importer `src/perf_event.rs` is), so the constant
values are taken from the Linux `perf_event_open` ABI that the spec's §6
says the records follow. -/

def PERF_RECORD_MMAP : Nat := 1
def PERF_RECORD_LOST : Nat := 2
def PERF_RECORD_COMM : Nat := 3
def PERF_RECORD_EXIT : Nat := 4
def PERF_RECORD_THROTTLE : Nat := 5
def PERF_RECORD_UNTHROTTLE : Nat := 6
def PERF_RECORD_FORK : Nat := 7
def PERF_RECORD_SAMPLE : Nat := 9
def PERF_RECORD_MMAP2 : Nat := 10
def PERF_RECORD_SWITCH : Nat := 14

def PERF_RECORD_MISC_CPUMODE_MASK : Nat := 7
def PERF_RECORD_MISC_KERNEL : Nat := 1
def PERF_RECORD_MISC_USER : Nat := 2
def PERF_RECORD_MISC_GUEST_KERNEL : Nat := 4
def PERF_RECORD_MISC_GUEST_USER : Nat := 5
def PERF_RECORD_MISC_COMM_EXEC : Nat := 2^13
def PERF_RECORD_MISC_SWITCH_OUT : Nat := 2^13
def PERF_RECORD_MISC_MMAP_DATA : Nat := 2^13
def PERF_RECORD_MISC_SWITCH_OUT_PREEMPT : Nat := 2^14
def PERF_RECORD_MISC_MMAP_BUILD_ID : Nat := 2^14

def PERF_SAMPLE_IP : Nat := 2^0
def PERF_SAMPLE_TID : Nat := 2^1
def PERF_SAMPLE_TIME : Nat := 2^2
def PERF_SAMPLE_ADDR : Nat := 2^3
def PERF_SAMPLE_READ : Nat := 2^4
def PERF_SAMPLE_CALLCHAIN : Nat := 2^5
def PERF_SAMPLE_ID : Nat := 2^6
def PERF_SAMPLE_CPU : Nat := 2^7
def PERF_SAMPLE_PERIOD : Nat := 2^8
def PERF_SAMPLE_STREAM_ID : Nat := 2^9
def PERF_SAMPLE_RAW : Nat := 2^10
def PERF_SAMPLE_BRANCH_STACK : Nat := 2^11
def PERF_SAMPLE_REGS_USER : Nat := 2^12
def PERF_SAMPLE_STACK_USER : Nat := 2^13
def PERF_SAMPLE_WEIGHT : Nat := 2^14
def PERF_SAMPLE_DATA_SRC : Nat := 2^15
def PERF_SAMPLE_IDENTIFIER : Nat := 2^16
def PERF_SAMPLE_TRANSACTION : Nat := 2^17
def PERF_SAMPLE_REGS_INTR : Nat := 2^18
def PERF_SAMPLE_PHYS_ADDR : Nat := 2^19
def PERF_SAMPLE_AUX : Nat := 2^20
def PERF_SAMPLE_DATA_PAGE_SIZE : Nat := 2^22
def PERF_SAMPLE_CODE_PAGE_SIZE : Nat := 2^23

/-- Modelled from the spec: the flag gating the `hw_idx` word of a
BRANCH_STACK sample body ("if HW_INDEX flag u64 hw_idx"); the numeric value
lives in the missing `src/perf_event_raw.rs`. Every theorem below is
independent of the chosen value. -/
def PERF_SAMPLE_BRANCH_HW_INDEX : Nat := 2^24

def PERF_FORMAT_TOTAL_TIME_ENABLED : Nat := 1
def PERF_FORMAT_TOTAL_TIME_RUNNING : Nat := 2
def PERF_FORMAT_ID : Nat := 4
def PERF_FORMAT_GROUP : Nat := 8

/-! ## Endian-aware primitive reads

Models the `byteorder` cursor reads (`read_u64::<T>()` …) used by
`RawEvent::parse`, instantiated at little-endian byte order (the
byte-order parameter of the Rust code is type-level; all concrete
scenarios of the spec are little-endian). A read that would run past the
end of the buffer is `none`, which models the `Err(UnexpectedEof)` that
the Rust caller `unwrap`s (a panic). -/

/-- Little-endian value of a byte list (least-significant byte first). -/
def leVal : List Nat → Nat
  | [] => 0
  | b :: rest => b + 256 * leVal rest

/-- Read `n` bytes at absolute position `pos` and return their
little-endian value, or `none` if fewer than `n` bytes remain. -/
def rdAt (buf : List Nat) (pos n : Nat) : Option Nat :=
  if pos + n ≤ buf.length then some (leVal ((buf.drop pos).take n)) else none

def rdU8 (buf : List Nat) (pos : Nat) : Option Nat := rdAt buf pos 1
def rdU16 (buf : List Nat) (pos : Nat) : Option Nat := rdAt buf pos 2
def rdU32 (buf : List Nat) (pos : Nat) : Option Nat := rdAt buf pos 4
def rdU64 (buf : List Nat) (pos : Nat) : Option Nat := rdAt buf pos 8

/-- `read_i32::<T>()`: read 4 bytes and interpret as two's-complement. -/
def rdI32 (buf : List Nat) (pos : Nat) : Option Int :=
  (rdU32 buf pos).map fun (u : Nat) => if u < 2^31 then (u : Int) else (u : Int) - 2^32

/-! ### Encoders (used to build the synthetic payloads of §8) -/

def encU8 (v : Nat) : List Nat := [v % 256]
def encU16 (v : Nat) : List Nat := [v % 256, v / 2^8 % 256]
def encU32 (v : Nat) : List Nat := [v % 256, v / 2^8 % 256, v / 2^16 % 256, v / 2^24 % 256]
def encU64 (v : Nat) : List Nat :=
  [v % 256, v / 2^8 % 256, v / 2^16 % 256, v / 2^24 % 256,
   v / 2^32 % 256, v / 2^40 % 256, v / 2^48 % 256, v / 2^56 % 256]

/-- Encode an `i32` as its two's-complement little-endian bytes. -/
def encI32 (v : Int) : List Nat := encU32 (v % (2^32)).toNat

/-- Concatenation of 64-bit words. -/
def encU64List : List Nat → List Nat
  | [] => []
  | v :: rest => encU64 v ++ encU64List rest

/-- The encoding of a field that is present only when its gate bit is set. -/
def encOpt (g : Bool) (l : List Nat) : List Nat := if g then l else []

theorem encOpt_true (l : List Nat) : encOpt true l = l := rfl
theorem encOpt_false (l : List Nat) : encOpt false l = [] := rfl

theorem leVal_encU64 (v : Nat) : leVal (encU64 v) = v % 2^64 := by
  simp only [encU64, leVal]
  omega

theorem leVal_encU32 (v : Nat) : leVal (encU32 v) = v % 2^32 := by
  simp only [encU32, leVal]
  omega

theorem leVal_encU16 (v : Nat) : leVal (encU16 v) = v % 2^16 := by
  simp only [encU16, leVal]
  omega

theorem leVal_encU8 (v : Nat) : leVal (encU8 v) = v % 2^8 := by
  simp only [encU8, leVal]
  omega

theorem encU64_length (v : Nat) : (encU64 v).length = 8 := rfl
theorem encU32_length (v : Nat) : (encU32 v).length = 4 := rfl

/-! ### The drop-form read lemmas

All round-trip proofs track the invariant `buf.drop pos = enc ++ rest`:
the bytes not yet consumed are exactly the encodings of the remaining
fields. -/

theorem rdAt_of_drop {buf A B : List Nat} {pos n : Nat}
    (h : buf.drop pos = A ++ B) (hA : A.length = n) (hpos : pos ≤ buf.length) :
    rdAt buf pos n = some (leVal A) := by
  have hlen : buf.length - pos = n + B.length := by
    have := congrArg List.length h
    simpa [List.length_drop, hA] using this
  have hle : pos + n ≤ buf.length := by omega
  have htake : (buf.drop pos).take n = A := by
    rw [h, ← hA]
    exact List.take_left A B
  simp [rdAt, hle, htake]

theorem drop_chain {buf A B : List Nat} {pos : Nat}
    (h : buf.drop pos = A ++ B) (hpos : pos ≤ buf.length) :
    buf.drop (pos + A.length) = B ∧ pos + A.length ≤ buf.length := by
  have hlen : buf.length - pos = A.length + B.length := by
    have := congrArg List.length h
    simpa [List.length_drop] using this
  constructor
  · rw [← List.drop_drop, h]
    exact List.drop_left A B
  · omega

theorem rdU64_of_drop {buf B : List Nat} {pos v : Nat}
    (h : buf.drop pos = encU64 v ++ B) (hpos : pos ≤ buf.length) (hv : v < 2^64) :
    rdU64 buf pos = some v := by
  have := rdAt_of_drop h (encU64_length v) hpos
  rw [rdU64, this, leVal_encU64, Nat.mod_eq_of_lt hv]

theorem rdU32_of_drop {buf B : List Nat} {pos v : Nat}
    (h : buf.drop pos = encU32 v ++ B) (hpos : pos ≤ buf.length) (hv : v < 2^32) :
    rdU32 buf pos = some v := by
  have := rdAt_of_drop h (encU32_length v) hpos
  rw [rdU32, this, leVal_encU32, Nat.mod_eq_of_lt hv]

theorem rdI32_of_drop {buf B : List Nat} {pos : Nat} {v : Int}
    (h : buf.drop pos = encI32 v ++ B) (hpos : pos ≤ buf.length)
    (hlo : -2^31 ≤ v) (hhi : v < 2^31) :
    rdI32 buf pos = some v := by
  have hmod : (v % (2^32)).toNat < 2^32 := by
    have h1 : v % (2^32) < 2^32 := Int.emod_lt_of_pos v (by norm_num)
    omega
  have hread := rdU32_of_drop (v := (v % (2^32)).toNat) h hpos hmod
  rw [rdI32, hread, Option.map_some']
  congr 1
  have h0 : (0 : Int) ≤ v % (2^32) := Int.emod_nonneg v (by norm_num)
  have hu : ((v % (2^32)).toNat : Int) = v % (2^32) := Int.toNat_of_nonneg h0
  simp only [show ((2:Int)^32) = 4294967296 from by norm_num,
    show ((2:Int)^31) = 2147483648 from by norm_num,
    show ((2:Nat)^31) = 2147483648 from by norm_num] at *
  split <;> omega

/-! ## RawData and RawRegs views

Modelled from the spec: `src/raw_data.rs` is not among the sources under
inspection. The spec (§3) describes `RawData` as a zero-copy byte view whose
subrange extraction `get(range)` "never panics on out-of-range; out-of-range
subranges yield an empty view or a typed failure (implementer's choice,
uniform)" — we take the empty-view choice — and `RawRegs` as "a
register-array view that indexes fixed-width 64-bit words" parsed in the
active endianness. -/

/-- `RawData::get(a..b)`: the subrange view, empty when out of range. -/
def rawGet (d : List Nat) (a b : Nat) : List Nat :=
  if a ≤ b ∧ b ≤ d.length then (d.drop a).take (b - a) else []

/-- `RawRegs`: a view of a byte buffer as 64-bit little-endian words. -/
structure RawRegs where
  bytes : List Nat
  deriving DecidableEq, Repr

/-- `RawRegs::get(i)`: the `i`-th 64-bit word of the view. -/
def RawRegs.get (r : RawRegs) (i : Nat) : Nat :=
  leVal ((r.bytes.drop (8 * i)).take 8)

/-! ## `Regs` (src/perf_event.rs lines 39–66) -/

structure Regs where
  regsMask : Nat
  rawRegs : RawRegs
  deriving DecidableEq, Repr

def Regs.new (regsMask : Nat) (rawRegs : RawRegs) : Regs :=
  { regsMask, rawRegs }

/-- `Regs::get`: `None` when bit `register` of the mask is clear, otherwise
the raw word at the index counting the set mask bits below `register`.
(`register` ranges over the 64 bit positions of the `u64` mask.) -/
def Regs.get (r : Regs) (register : Nat) : Option Nat :=
  if r.regsMask &&& (1 <<< register) = 0 then
    none
  else
    some (r.rawRegs.get ((List.range register).countP
      (fun i => r.regsMask &&& (1 <<< i) != 0)))

/-- The mask test of the source (`mask & (1 << i) != 0`) is the `i`-th bit. -/
theorem mask_and_shift (m i : Nat) : (m &&& (1 <<< i) = 0) ↔ m.testBit i = false := by
  rw [Nat.one_shiftLeft]
  constructor
  · intro h
    by_contra hbit
    have hb : m.testBit i = true := by
      cases hv : m.testBit i
      · exact absurd hv hbit
      · rfl
    have hand : (m &&& 2^i).testBit i = true := by
      simp [Nat.testBit_and, hb, Nat.testBit_two_pow_self]
    rw [h] at hand
    simp [Nat.zero_testBit] at hand
  · intro h
    apply Nat.eq_of_testBit_eq
    intro j
    simp only [Nat.testBit_and, Nat.zero_testBit]
    by_cases hj : j = i
    · subst hj
      simp [h]
    · simp [Nat.testBit_two_pow_of_ne (fun hne => hj hne.symm)]

/-- Bool form of `mask_and_shift`. -/
theorem mask_and_shift_bool (m i : Nat) : (m &&& (1 <<< i) != 0) = m.testBit i := by
  cases hv : m.testBit i
  · have h0 : m &&& (1 <<< i) = 0 := (mask_and_shift m i).2 hv
    simp [h0]
  · have h0 : ¬ (m &&& (1 <<< i) = 0) := by
      intro h
      have := (mask_and_shift m i).1 h
      rw [hv] at this
      simp at this
    simp [bne_iff_ne, h0]

/-- C3: for every mask `M` and register index `r < 64`: if bit `r` of `M` is
set, `Regs::get r` on a `Regs` built from `M` returns `some` of the raw word
at the index equal to the number of set bits of `M` strictly below position
`r`; if bit `r` is clear, `get r` returns `none`. -/
theorem regs_get_popcount (M r : Nat) (raw : RawRegs) (_hr : r < 64) :
    (M.testBit r = true →
      (Regs.new M raw).get r =
        some (raw.get (((List.range r).filter (fun i => M.testBit i)).length))) ∧
    (M.testBit r = false → (Regs.new M raw).get r = none) := by
  constructor
  · intro hbit
    have hmask : ¬ (M &&& (1 <<< r) = 0) := by
      rw [mask_and_shift]
      simp [hbit]
    rw [Regs.get]
    simp only [Regs.new, hmask, if_false]
    congr 2
    rw [← List.countP_eq_length_filter]
    simp only [mask_and_shift_bool]
  · intro hbit
    have hmask : M &&& (1 <<< r) = 0 := by rw [mask_and_shift]; exact hbit
    rw [Regs.get]
    simp [Regs.new, hmask]

/-- Witness for C3 at `M = 0b1101`, `r = 3`: bit 3 is set and two set bits
lie below it, so `get 3` is word 2; and at `r = 1` the bit is clear. -/
theorem regs_get_popcount_witness :
    (3 : Nat) < 64 ∧
    (Regs.new 13 ⟨List.range 24⟩).get 3 =
      some ((RawRegs.mk (List.range 24)).get
        (((List.range 3).filter (fun i => (13 : Nat).testBit i)).length)) := by
  refine ⟨by decide, ?_⟩
  exact (regs_get_popcount 13 3 ⟨List.range 24⟩ (by decide)).1 (by decide)

/-! ## DSO classifier (src/perf_event.rs lines 101–184) -/

/-- Byte list of an ASCII string literal. -/
def bytesOfAscii (s : String) : List Nat := s.data.map Char.toNat

/-- The UTF-8 replacement character U+FFFD, as bytes. -/
def utf8Rep : List Nat := [239, 191, 189]

/-- One validation pass of `String::from_utf8_lossy` (Rust standard
library): copy well-formed UTF-8 sequences, replace each maximal invalid
subpart by U+FFFD. `fuel` bounds the recursion; `utf8Lossy` supplies
`l.length`, which suffices since every step consumes at least one byte. -/
def lossyGo : Nat → List Nat → List Nat
  | 0, _ => []
  | _, [] => []
  | fuel+1, b :: rest =>
    if b < 128 then b :: lossyGo fuel rest
    else if 194 ≤ b ∧ b ≤ 223 then
      match rest with
      | c :: rest2 =>
        if 128 ≤ c ∧ c ≤ 191 then b :: c :: lossyGo fuel rest2
        else utf8Rep ++ lossyGo fuel rest
      | [] => utf8Rep
    else if 224 ≤ b ∧ b ≤ 239 then
      match rest with
      | c :: rest2 =>
        if (if b = 224 then 160 ≤ c ∧ c ≤ 191
            else if b = 237 then 128 ≤ c ∧ c ≤ 159
            else 128 ≤ c ∧ c ≤ 191) then
          match rest2 with
          | d :: rest3 =>
            if 128 ≤ d ∧ d ≤ 191 then b :: c :: d :: lossyGo fuel rest3
            else utf8Rep ++ lossyGo fuel rest2
          | [] => utf8Rep
        else utf8Rep ++ lossyGo fuel rest
      | [] => utf8Rep
    else if 240 ≤ b ∧ b ≤ 244 then
      match rest with
      | c :: rest2 =>
        if (if b = 240 then 144 ≤ c ∧ c ≤ 191
            else if b = 244 then 128 ≤ c ∧ c ≤ 143
            else 128 ≤ c ∧ c ≤ 191) then
          match rest2 with
          | d :: rest3 =>
            if 128 ≤ d ∧ d ≤ 191 then
              match rest3 with
              | e :: rest4 =>
                if 128 ≤ e ∧ e ≤ 191 then b :: c :: d :: e :: lossyGo fuel rest4
                else utf8Rep ++ lossyGo fuel rest3
              | [] => utf8Rep
            else utf8Rep ++ lossyGo fuel rest2
          | [] => utf8Rep
        else utf8Rep ++ lossyGo fuel rest
      | [] => utf8Rep
    else utf8Rep ++ lossyGo fuel rest

/-- `String::from_utf8_lossy` on a byte list, producing the UTF-8 bytes of
the resulting string. On ASCII input it is the identity. -/
def utf8Lossy (l : List Nat) : List Nat := lossyGo l.length l

/-- The bytes after the last `/` (the whole path if there is none):
`path.iter().rposition(|b| *b == b'/')` followed by the tail slice. -/
def basename (p : List Nat) : List Nat :=
  (p.reverse.takeWhile (fun b => b != 47)).reverse

/-- `slice::strip_suffix`. -/
def stripSuffix (l suf : List Nat) : Option (List Nat) :=
  if suf <:+ l then some (l.take (l.length - suf.length)) else none

inductive DsoKey where
  | kernel
  | guestKernel
  | vdso32
  | vdsoX32
  | vdso64
  | vsyscall
  | kernelModule (name : List Nat)
  | user (name : List Nat) (path : List Nat)
  deriving DecidableEq, Repr

/-- The `(KERNEL, _)`, `(GUEST_KERNEL, _)`, `(USER | GUEST_USER, _)` and
catch-all arms of the final `match` of `DsoKey::detect`. -/
def detectFallback (cpumode : Nat) (filename path : List Nat) : Option DsoKey :=
  if cpumode = PERF_RECORD_MISC_KERNEL then some .kernel
  else if cpumode = PERF_RECORD_MISC_GUEST_KERNEL then some .guestKernel
  else if cpumode = PERF_RECORD_MISC_USER ∨ cpumode = PERF_RECORD_MISC_GUEST_USER then
    some (.user (utf8Lossy filename) path)
  else none

/-- `DsoKey::detect(path, misc)`. -/
def DsoKey.detect (path : List Nat) (misc : Nat) : Option DsoKey :=
  if path = bytesOfAscii "//anon" ∨ path = bytesOfAscii "[stack]" ∨
     path = bytesOfAscii "[heap]" ∨ path = bytesOfAscii "[vvar]" then none
  else
    let cpumode := misc &&& PERF_RECORD_MISC_CPUMODE_MASK
    if (bytesOfAscii "[kernel.kallsyms]").isPrefixOf path then
      some (if cpumode = PERF_RECORD_MISC_GUEST_KERNEL then .guestKernel else .kernel)
    else if (bytesOfAscii "[guest.kernel.kallsyms").isPrefixOf path then
      some .guestKernel
    else if path = bytesOfAscii "[vdso32]" then some .vdso32
    else if path = bytesOfAscii "[vdsox32]" then some .vdsoX32
    else if path = bytesOfAscii "[vdso]" then some .vdso64
    else if path = bytesOfAscii "[vsyscall]" then some .vsyscall
    else if (cpumode = PERF_RECORD_MISC_KERNEL ∨ cpumode = PERF_RECORD_MISC_GUEST_KERNEL)
            ∧ (bytesOfAscii "[").isPrefixOf path then
      some (.kernelModule (utf8Lossy path))
    else
      let filename := basename path
      match stripSuffix filename (bytesOfAscii ".ko") with
      | some kmodName =>
        if cpumode = PERF_RECORD_MISC_KERNEL ∨ cpumode = PERF_RECORD_MISC_GUEST_KERNEL then
          some (.kernelModule (bytesOfAscii "[" ++ utf8Lossy kmodName ++ bytesOfAscii "]"))
        else detectFallback cpumode filename path
      | none => detectFallback cpumode filename path

theorem stripSuffix_append (A S : List Nat) : stripSuffix (A ++ S) S = some A := by
  rw [stripSuffix, if_pos]
  · congr 1
    have : (A ++ S).length - S.length = A.length := by
      simp [List.length_append]
    rw [this]
    exact List.take_left A S
  · exact List.suffix_append A S

/-- C7: for every path whose cpumode is KERNEL or GUEST_KERNEL, that matches
no earlier classifier rule (it is not `//anon` and does not start with `[`,
which under a kernel cpumode rules out every earlier rule), and whose
basename ends in `.ko`, `DsoKey::detect` returns `KernelModule` of the
basename with the `.ko` suffix removed, converted to lossy UTF-8 and
wrapped in square brackets. -/
theorem detect_kernel_module (path stem : List Nat) (misc : Nat)
    (hmode : misc &&& PERF_RECORD_MISC_CPUMODE_MASK = PERF_RECORD_MISC_KERNEL ∨
             misc &&& PERF_RECORD_MISC_CPUMODE_MASK = PERF_RECORD_MISC_GUEST_KERNEL)
    (hanon : path ≠ bytesOfAscii "//anon")
    (hbracket : path.head? ≠ some 91)
    (hko : basename path = stem ++ bytesOfAscii ".ko") :
    DsoKey.detect path misc =
      some (.kernelModule (bytesOfAscii "[" ++ utf8Lossy stem ++ bytesOfAscii "]")) := by
  match path, hbracket with
  | [], _ =>
    exfalso
    have := congrArg List.length hko
    simp [basename, bytesOfAscii] at this
  | b :: rest, hbracket =>
    have hb : b ≠ 91 := fun hb => hbracket (by simp [hb])
    have hcond1 : ¬ (b :: rest = bytesOfAscii "//anon" ∨ b :: rest = bytesOfAscii "[stack]" ∨
        b :: rest = bytesOfAscii "[heap]" ∨ b :: rest = bytesOfAscii "[vvar]") := by
      rintro (h | h | h | h)
      · exact hanon h
      all_goals simp [bytesOfAscii] at h; exact hb h.1
    have hk1 : (bytesOfAscii "[kernel.kallsyms]").isPrefixOf (b :: rest) = false := by
      simp [bytesOfAscii, List.isPrefixOf]
      intro h
      exact absurd h.symm hb
    have hk2 : (bytesOfAscii "[guest.kernel.kallsyms").isPrefixOf (b :: rest) = false := by
      simp [bytesOfAscii, List.isPrefixOf]
      intro h
      exact absurd h.symm hb
    have hbr : (bytesOfAscii "[").isPrefixOf (b :: rest) = false := by
      simp [bytesOfAscii, List.isPrefixOf]
      intro h
      exact absurd h.symm hb
    have hv1 : b :: rest ≠ bytesOfAscii "[vdso32]" := by
      simp [bytesOfAscii]; intro h; exact absurd h hb
    have hv2 : b :: rest ≠ bytesOfAscii "[vdsox32]" := by
      simp [bytesOfAscii]; intro h; exact absurd h hb
    have hv3 : b :: rest ≠ bytesOfAscii "[vdso]" := by
      simp [bytesOfAscii]; intro h; exact absurd h hb
    have hv4 : b :: rest ≠ bytesOfAscii "[vsyscall]" := by
      simp [bytesOfAscii]; intro h; exact absurd h hb
    have hstrip : stripSuffix (basename (b :: rest)) (bytesOfAscii ".ko") = some stem := by
      rw [hko]
      exact stripSuffix_append stem (bytesOfAscii ".ko")
    rw [DsoKey.detect, if_neg hcond1]
    simp only [hk1, hk2, hbr, Bool.false_eq_true, if_false, and_false,
      if_neg hv1, if_neg hv2, if_neg hv3, if_neg hv4, hstrip]
    rw [if_pos hmode]

/-- Witness for C7: `detect("/lib/modules/5.13/kernel/x/foo.ko", KERNEL)`
is `KernelModule("[foo]")`. -/
theorem detect_kernel_module_witness :
    DsoKey.detect (bytesOfAscii "/lib/modules/5.13/kernel/x/foo.ko")
        PERF_RECORD_MISC_KERNEL =
      some (.kernelModule (bytesOfAscii "[" ++ utf8Lossy (bytesOfAscii "foo") ++
        bytesOfAscii "]")) :=
  detect_kernel_module _ (bytesOfAscii "foo") _ (by decide) (by decide) (by decide)
    (by decide)

/-! ## Event model (src/perf_event.rs lines 21–243) -/

structure RawEvent where
  kind : Nat
  misc : Nat
  data : List Nat
  deriving DecidableEq, Repr

structure SampleEvent where
  timestamp : Option Nat
  pid : Option Int
  tid : Option Int
  cpu : Option Nat
  period : Option Nat
  regs : Option Regs
  dynamicStackSize : Nat
  stack : List Nat
  callchain : Option (List Nat)
  deriving DecidableEq, Repr

structure ProcessEvent where
  pid : Int
  ppid : Int
  tid : Int
  ptid : Int
  timestamp : Nat
  deriving DecidableEq, Repr

structure CommEvent where
  pid : Int
  tid : Int
  name : List Nat
  isExecve : Bool
  deriving DecidableEq, Repr

structure MmapEvent where
  pid : Int
  tid : Int
  address : Nat
  length : Nat
  pageOffset : Nat
  isExecutable : Bool
  dsoKey : Option DsoKey
  path : List Nat
  deriving DecidableEq, Repr

structure Mmap2InodeAndVersion where
  major : Nat
  minor : Nat
  inode : Nat
  inodeGeneration : Nat
  deriving DecidableEq, Repr

inductive Mmap2FileId where
  | inodeAndVersion (v : Mmap2InodeAndVersion)
  | buildId (bytes : List Nat)
  deriving DecidableEq, Repr

structure Mmap2Event where
  pid : Int
  tid : Int
  address : Nat
  length : Nat
  pageOffset : Nat
  fileId : Mmap2FileId
  protection : Nat
  flags : Nat
  dsoKey : Option DsoKey
  path : List Nat
  deriving DecidableEq, Repr

structure LostEvent where
  id : Nat
  count : Nat
  deriving DecidableEq, Repr

structure ThrottleEvent where
  id : Nat
  timestamp : Nat
  deriving DecidableEq, Repr

inductive ContextSwitchKind where
  | In
  | OutWhileIdle
  | OutWhileRunning
  deriving DecidableEq, Repr

inductive Event where
  | sample (e : SampleEvent)
  | comm (e : CommEvent)
  | exit (e : ProcessEvent)
  | fork (e : ProcessEvent)
  | mmap (e : MmapEvent)
  | mmap2 (e : Mmap2Event)
  | lost (e : LostEvent)
  | throttle (e : ThrottleEvent)
  | unthrottle (e : ThrottleEvent)
  | contextSwitch (kind : ContextSwitchKind)
  | raw (ev : RawEvent)
  deriving DecidableEq, Repr

/-! ## The perf record decoder `RawEvent::parse`
(src/perf_event.rs lines 376–768)

The PERF_RECORD_SAMPLE arm is a straight-line sequence of reads, each gated
on a `sample_type` bit; every gated block of the source becomes one `st…`
stage function below, threading the cursor position. -/

def sampleBit (st flag : Nat) : Bool := st &&& flag != 0

/-- A gated `let _ = cur.read_u64::<T>().unwrap();` block (used for
IDENTIFIER, IP, ADDR, ID, STREAM_ID, WEIGHT, DATA_SRC, TRANSACTION,
PHYS_ADDR, DATA_PAGE_SIZE, CODE_PAGE_SIZE, and the optional words of the
READ / BRANCH_STACK sub-layouts). -/
def stSkipU64 (g : Bool) (buf : List Nat) (pos : Nat) : Option Nat :=
  if g then
    match rdU64 buf pos with
    | some _ => some (pos + 8)
    | none => none
  else some pos

/-- A gated `u64` read whose value is kept (TIME, PERIOD). -/
def stOptU64 (g : Bool) (buf : List Nat) (pos : Nat) : Option (Option Nat × Nat) :=
  if g then (rdU64 buf pos).map (fun v => (some v, pos + 8)) else some (none, pos)

/-- The PERF_SAMPLE_TID block: `i32 pid, i32 tid`. -/
def stTid (g : Bool) (buf : List Nat) (pos : Nat) :
    Option ((Option Int × Option Int) × Nat) :=
  if g then
    match rdI32 buf pos with
    | none => none
    | some pid =>
      match rdI32 buf (pos + 4) with
      | none => none
      | some tid => some ((some pid, some tid), pos + 8)
  else some ((none, none), pos)

/-- The PERF_SAMPLE_CPU block: `u32 cpu, u32 reserved`. -/
def stCpu (g : Bool) (buf : List Nat) (pos : Nat) : Option (Option Nat × Nat) :=
  if g then
    match rdU32 buf pos with
    | none => none
    | some cpu =>
      match rdU32 buf (pos + 4) with
      | none => none
      | some _ => some (some cpu, pos + 8)
  else some (none, pos)

/-- The `for _ in 0..nr { value; optional id }` loop of the grouped READ
sub-layout. -/
def skipGroupEntries (hasId : Bool) : Nat → List Nat → Nat → Option Nat
  | 0, _, pos => some pos
  | k+1, buf, pos =>
    match rdU64 buf pos with
    | none => none
    | some _ =>
      match stSkipU64 hasId buf (pos + 8) with
      | none => none
      | some p => skipGroupEntries hasId k buf p

/-- The PERF_SAMPLE_READ block. -/
def stRead (g : Bool) (rf : Nat) (buf : List Nat) (pos : Nat) : Option Nat :=
  if g then
    if rf &&& PERF_FORMAT_GROUP = 0 then
      match rdU64 buf pos with
      | none => none
      | some _ =>
        match stSkipU64 (rf &&& PERF_FORMAT_TOTAL_TIME_ENABLED != 0) buf (pos + 8) with
        | none => none
        | some p1 =>
          match stSkipU64 (rf &&& PERF_FORMAT_TOTAL_TIME_RUNNING != 0) buf p1 with
          | none => none
          | some p2 => stSkipU64 (rf &&& PERF_FORMAT_ID != 0) buf p2
    else
      match rdU64 buf pos with
      | none => none
      | some nr =>
        match stSkipU64 (rf &&& PERF_FORMAT_TOTAL_TIME_ENABLED != 0) buf (pos + 8) with
        | none => none
        | some p1 =>
          match stSkipU64 (rf &&& PERF_FORMAT_TOTAL_TIME_RUNNING != 0) buf p1 with
          | none => none
          | some p2 => skipGroupEntries (rf &&& PERF_FORMAT_ID != 0) nr buf p2
  else some pos

/-- The `for _ in 0..callchain_length { read addr }` loop. -/
def rdChain : Nat → List Nat → Nat → Option (List Nat × Nat)
  | 0, _, pos => some ([], pos)
  | k+1, buf, pos =>
    match rdU64 buf pos with
    | none => none
    | some a =>
      match rdChain k buf (pos + 8) with
      | none => none
      | some (l, p) => some (a :: l, p)

/-- The PERF_SAMPLE_CALLCHAIN block. -/
def stCallchain (g : Bool) (buf : List Nat) (pos : Nat) :
    Option (Option (List Nat) × Nat) :=
  if g then
    match rdU64 buf pos with
    | none => none
    | some n =>
      match rdChain n buf (pos + 8) with
      | none => none
      | some (l, p) => some (some l, p)
  else some (none, pos)

/-- The PERF_SAMPLE_RAW block: `u32 size` then
`cur.set_position(cur.position() + size)` (no bounds check at the skip). -/
def stRaw (g : Bool) (buf : List Nat) (pos : Nat) : Option Nat :=
  if g then (rdU32 buf pos).map (fun sz => pos + 4 + sz) else some pos

/-- The `for _ in 0..nr { from; to; flags }` loop of BRANCH_STACK. -/
def skipTriples : Nat → List Nat → Nat → Option Nat
  | 0, _, pos => some pos
  | k+1, buf, pos =>
    match rdU64 buf pos with
    | none => none
    | some _ =>
      match rdU64 buf (pos + 8) with
      | none => none
      | some _ =>
        match rdU64 buf (pos + 16) with
        | none => none
        | some _ => skipTriples k buf (pos + 24)

/-- The PERF_SAMPLE_BRANCH_STACK block. -/
def stBranch (gB gHw : Bool) (buf : List Nat) (pos : Nat) : Option Nat :=
  if gB then
    match rdU64 buf pos with
    | none => none
    | some nr =>
      match stSkipU64 gHw buf (pos + 8) with
      | none => none
      | some p1 => skipTriples nr buf p1
  else some pos

/-- The PERF_SAMPLE_REGS_USER block: `u64 abi`; if nonzero, view
`regs_count` 64-bit words of the record as a `RawRegs` and build a `Regs`
with mask `sample_regs_user`. -/
def stRegsUser (g : Bool) (rc : Nat) (sru : Nat) (data : List Nat) (pos : Nat) :
    Option (Option Regs × Nat) :=
  if g then
    match rdU64 data pos with
    | none => none
    | some abi =>
      if abi = 0 then some (none, pos + 8)
      else
        some (some (Regs.new sru ⟨rawGet data (pos + 8) (pos + 8 + rc * 8)⟩),
          pos + 8 + rc * 8)
  else some (none, pos)

/-- The PERF_SAMPLE_STACK_USER block: `u64 size`, a `RawData` subview of
`size` record bytes, and (when `size ≠ 0`) a trailing `u64 dynamic_size`. -/
def stStack (g : Bool) (data : List Nat) (pos : Nat) :
    Option ((List Nat × Nat) × Nat) :=
  if g then
    match rdU64 data pos with
    | none => none
    | some stackSize =>
      if stackSize != 0 then
        match rdU64 data (pos + 8 + stackSize) with
        | none => none
        | some dyn =>
          some ((rawGet data (pos + 8) (pos + 8 + stackSize), dyn),
            pos + 8 + stackSize + 8)
      else some ((rawGet data (pos + 8) (pos + 8 + stackSize), 0),
        pos + 8 + stackSize)
  else some (([], 0), pos)

/-- The PERF_SAMPLE_REGS_INTR block: `u64 abi`; if nonzero skip
`regs_count` words. -/
def stRegsIntr (g : Bool) (rc : Nat) (buf : List Nat) (pos : Nat) : Option Nat :=
  if g then
    match rdU64 buf pos with
    | none => none
    | some abi => some (if abi = 0 then pos + 8 else pos + 8 + rc * 8)
  else some pos

/-- The PERF_SAMPLE_AUX block: `u64 size` then skip `size` bytes. -/
def stAux (g : Bool) (buf : List Nat) (pos : Nat) : Option Nat :=
  if g then (rdU64 buf pos).map (fun sz => pos + 8 + sz) else some pos

/-- The PERF_RECORD_SAMPLE arm of `RawEvent::parse`. -/
def parseSample (sampleType readFormat regsCount sampleRegsUser : Nat)
    (data : List Nat) : Option SampleEvent :=
  match stSkipU64 (sampleBit sampleType PERF_SAMPLE_IDENTIFIER) data 0 with
  | none => none
  | some p1 =>
  match stSkipU64 (sampleBit sampleType PERF_SAMPLE_IP) data p1 with
  | none => none
  | some p2 =>
  match stTid (sampleBit sampleType PERF_SAMPLE_TID) data p2 with
  | none => none
  | some ((pid, tid), p3) =>
  match stOptU64 (sampleBit sampleType PERF_SAMPLE_TIME) data p3 with
  | none => none
  | some (timestamp, p4) =>
  match stSkipU64 (sampleBit sampleType PERF_SAMPLE_ADDR) data p4 with
  | none => none
  | some p5 =>
  match stSkipU64 (sampleBit sampleType PERF_SAMPLE_ID) data p5 with
  | none => none
  | some p6 =>
  match stSkipU64 (sampleBit sampleType PERF_SAMPLE_STREAM_ID) data p6 with
  | none => none
  | some p7 =>
  match stCpu (sampleBit sampleType PERF_SAMPLE_CPU) data p7 with
  | none => none
  | some (cpu, p8) =>
  match stOptU64 (sampleBit sampleType PERF_SAMPLE_PERIOD) data p8 with
  | none => none
  | some (period, p9) =>
  match stRead (sampleBit sampleType PERF_SAMPLE_READ) readFormat data p9 with
  | none => none
  | some p10 =>
  match stCallchain (sampleBit sampleType PERF_SAMPLE_CALLCHAIN) data p10 with
  | none => none
  | some (callchain, p11) =>
  match stRaw (sampleBit sampleType PERF_SAMPLE_RAW) data p11 with
  | none => none
  | some p12 =>
  match stBranch (sampleBit sampleType PERF_SAMPLE_BRANCH_STACK)
      (sampleBit sampleType PERF_SAMPLE_BRANCH_HW_INDEX) data p12 with
  | none => none
  | some p13 =>
  match stRegsUser (sampleBit sampleType PERF_SAMPLE_REGS_USER)
      regsCount sampleRegsUser data p13 with
  | none => none
  | some (regs, p14) =>
  match stStack (sampleBit sampleType PERF_SAMPLE_STACK_USER) data p14 with
  | none => none
  | some ((stack, dynamicStackSize), p15) =>
  match stSkipU64 (sampleBit sampleType PERF_SAMPLE_WEIGHT) data p15 with
  | none => none
  | some p16 =>
  match stSkipU64 (sampleBit sampleType PERF_SAMPLE_DATA_SRC) data p16 with
  | none => none
  | some p17 =>
  match stSkipU64 (sampleBit sampleType PERF_SAMPLE_TRANSACTION) data p17 with
  | none => none
  | some p18 =>
  match stRegsIntr (sampleBit sampleType PERF_SAMPLE_REGS_INTR) regsCount data p18 with
  | none => none
  | some p19 =>
  match stSkipU64 (sampleBit sampleType PERF_SAMPLE_PHYS_ADDR) data p19 with
  | none => none
  | some p20 =>
  match stAux (sampleBit sampleType PERF_SAMPLE_AUX) data p20 with
  | none => none
  | some p21 =>
  match stSkipU64 (sampleBit sampleType PERF_SAMPLE_DATA_PAGE_SIZE) data p21 with
  | none => none
  | some p22 =>
  match stSkipU64 (sampleBit sampleType PERF_SAMPLE_CODE_PAGE_SIZE) data p22 with
  | none => none
  | some _ =>
    some { timestamp, pid, tid, cpu, period, regs, dynamicStackSize, stack, callchain }

/-- `&raw_data[pos..]` truncated at the first NUL byte (or the end). -/
def takeName (data : List Nat) (pos : Nat) : List Nat :=
  (data.drop pos).takeWhile (fun b => b != 0)

/-- The PERF_RECORD_EXIT / PERF_RECORD_FORK arm. -/
def parseProcess (data : List Nat) : Option ProcessEvent :=
  match rdI32 data 0 with
  | none => none
  | some pid =>
  match rdI32 data 4 with
  | none => none
  | some ppid =>
  match rdI32 data 8 with
  | none => none
  | some tid =>
  match rdI32 data 12 with
  | none => none
  | some ptid =>
  match rdU64 data 16 with
  | none => none
  | some timestamp => some { pid, ppid, tid, ptid, timestamp }

/-- The PERF_RECORD_COMM arm. -/
def parseComm (misc : Nat) (data : List Nat) : Option CommEvent :=
  match rdI32 data 0 with
  | none => none
  | some pid =>
  match rdI32 data 4 with
  | none => none
  | some tid =>
    some { pid, tid, name := takeName data 8,
           isExecve := misc &&& PERF_RECORD_MISC_COMM_EXEC != 0 }

/-- The PERF_RECORD_MMAP arm. -/
def parseMmap (misc : Nat) (data : List Nat) : Option MmapEvent :=
  match rdI32 data 0 with
  | none => none
  | some pid =>
  match rdI32 data 4 with
  | none => none
  | some tid =>
  match rdU64 data 8 with
  | none => none
  | some address =>
  match rdU64 data 16 with
  | none => none
  | some length =>
  match rdU64 data 24 with
  | none => none
  | some pageOffset =>
    let name := takeName data 32
    some { pid, tid, address, length, pageOffset,
           isExecutable := misc &&& PERF_RECORD_MISC_MMAP_DATA == 0,
           dsoKey := DsoKey.detect name misc, path := name }

/-- The file-id branch of the PERF_RECORD_MMAP2 arm, entered with the
cursor at byte 32. In the build-id branch the source reads
`u8 build_id_len` (asserting `≤ 20`), two reserved bytes, takes
`build_id_len` bytes of the record by indexing (a panic when out of
range), and then advances the cursor by exactly 20 bytes. -/
def mmap2FileId (misc : Nat) (data : List Nat) : Option (Mmap2FileId × Nat) :=
  if misc &&& PERF_RECORD_MISC_MMAP_BUILD_ID != 0 then
    match rdU8 data 32 with
    | none => none
    | some buildIdLen =>
      if buildIdLen ≤ 20 then
        match rdU8 data 33 with
        | none => none
        | some _ =>
        match rdU16 data 34 with
        | none => none
        | some _ =>
          if 36 + buildIdLen ≤ data.length then
            some (Mmap2FileId.buildId ((data.drop 36).take buildIdLen), 36 + 20)
          else none
      else none
  else
    match rdU32 data 32 with
    | none => none
    | some major =>
    match rdU32 data 36 with
    | none => none
    | some minor =>
    match rdU64 data 40 with
    | none => none
    | some inode =>
    match rdU64 data 48 with
    | none => none
    | some inodeGeneration =>
      some (Mmap2FileId.inodeAndVersion ⟨major, minor, inode, inodeGeneration⟩, 56)

/-- The PERF_RECORD_MMAP2 arm. -/
def parseMmap2 (misc : Nat) (data : List Nat) : Option Mmap2Event :=
  match rdI32 data 0 with
  | none => none
  | some pid =>
  match rdI32 data 4 with
  | none => none
  | some tid =>
  match rdU64 data 8 with
  | none => none
  | some address =>
  match rdU64 data 16 with
  | none => none
  | some length =>
  match rdU64 data 24 with
  | none => none
  | some pageOffset =>
  match mmap2FileId misc data with
  | none => none
  | some (fileId, p) =>
  match rdU32 data p with
  | none => none
  | some protection =>
  match rdU32 data (p + 4) with
  | none => none
  | some flags =>
    let name := takeName data (p + 8)
    some { pid, tid, address, length, pageOffset, fileId, protection, flags,
           dsoKey := DsoKey.detect name misc, path := name }

/-- The PERF_RECORD_LOST arm. -/
def parseLost (data : List Nat) : Option LostEvent :=
  match rdU64 data 0 with
  | none => none
  | some id =>
  match rdU64 data 8 with
  | none => none
  | some count => some { id, count }

/-- The PERF_RECORD_THROTTLE / UNTHROTTLE arm. -/
def parseThrottle (data : List Nat) : Option ThrottleEvent :=
  match rdU64 data 0 with
  | none => none
  | some timestamp =>
  match rdU64 data 8 with
  | none => none
  | some id => some { id, timestamp }

/-- The PERF_RECORD_SWITCH arm: the kind is computed from misc alone. -/
def switchKind (misc : Nat) : ContextSwitchKind :=
  if misc &&& PERF_RECORD_MISC_SWITCH_OUT != 0 then
    if misc &&& PERF_RECORD_MISC_SWITCH_OUT_PREEMPT != 0 then
      ContextSwitchKind.OutWhileRunning
    else
      ContextSwitchKind.OutWhileIdle
  else
    ContextSwitchKind.In

/-- `RawEvent::parse`. Returns `none` when the Rust code would panic (an
`unwrap` of a failed read, a failed `assert!`, or an out-of-range slice
index); the Rust signature returns a bare `Event` and has no typed error
channel. -/
def RawEvent.parse (self : RawEvent)
    (sampleType readFormat regsCount sampleRegsUser : Nat)
    (_sampleIdAll : Bool) : Option Event :=
  if self.kind = PERF_RECORD_EXIT ∨ self.kind = PERF_RECORD_FORK then
    (parseProcess self.data).map fun e =>
      if self.kind = PERF_RECORD_EXIT then Event.exit e else Event.fork e
  else if self.kind = PERF_RECORD_SAMPLE then
    (parseSample sampleType readFormat regsCount sampleRegsUser self.data).map
      Event.sample
  else if self.kind = PERF_RECORD_COMM then
    (parseComm self.misc self.data).map Event.comm
  else if self.kind = PERF_RECORD_MMAP then
    (parseMmap self.misc self.data).map Event.mmap
  else if self.kind = PERF_RECORD_MMAP2 then
    (parseMmap2 self.misc self.data).map Event.mmap2
  else if self.kind = PERF_RECORD_LOST then
    (parseLost self.data).map Event.lost
  else if self.kind = PERF_RECORD_THROTTLE ∨ self.kind = PERF_RECORD_UNTHROTTLE then
    (parseThrottle self.data).map fun e =>
      if self.kind = PERF_RECORD_THROTTLE then Event.throttle e else Event.unthrottle e
  else if self.kind = PERF_RECORD_SWITCH then
    some (Event.contextSwitch (switchKind self.misc))
  else
    some (Event.raw self)

/-! ## C6: SWITCH records -/

/-- C6: for every SWITCH record, the emitted ContextSwitch kind is
determined by the misc field alone: `OutWhileRunning` when both SWITCH_OUT
and SWITCH_OUT_PREEMPT bits are set, `OutWhileIdle` when SWITCH_OUT is set
and SWITCH_OUT_PREEMPT is clear, and `In` when SWITCH_OUT is clear. -/
theorem switch_kind_from_misc (st rf rc sru : Nat) (sia : Bool) (misc : Nat)
    (data : List Nat) :
    (misc &&& PERF_RECORD_MISC_SWITCH_OUT ≠ 0 ∧
        misc &&& PERF_RECORD_MISC_SWITCH_OUT_PREEMPT ≠ 0 →
      (RawEvent.mk PERF_RECORD_SWITCH misc data).parse st rf rc sru sia =
        some (Event.contextSwitch ContextSwitchKind.OutWhileRunning)) ∧
    (misc &&& PERF_RECORD_MISC_SWITCH_OUT ≠ 0 ∧
        misc &&& PERF_RECORD_MISC_SWITCH_OUT_PREEMPT = 0 →
      (RawEvent.mk PERF_RECORD_SWITCH misc data).parse st rf rc sru sia =
        some (Event.contextSwitch ContextSwitchKind.OutWhileIdle)) ∧
    (misc &&& PERF_RECORD_MISC_SWITCH_OUT = 0 →
      (RawEvent.mk PERF_RECORD_SWITCH misc data).parse st rf rc sru sia =
        some (Event.contextSwitch ContextSwitchKind.In)) := by
  refine ⟨fun h => ?_, fun h => ?_, fun h => ?_⟩ <;>
    simp only [RawEvent.parse, PERF_RECORD_EXIT, PERF_RECORD_FORK,
      PERF_RECORD_SAMPLE, PERF_RECORD_COMM, PERF_RECORD_MMAP,
      PERF_RECORD_MMAP2, PERF_RECORD_LOST, PERF_RECORD_THROTTLE,
      PERF_RECORD_UNTHROTTLE, PERF_RECORD_SWITCH] <;>
    norm_num <;>
    simp only [switchKind, bne_iff_ne, ne_eq] <;>
    [skip; skip; skip] <;>
    first
    | (rw [if_pos h.1, if_pos h.2])
    | (rw [if_pos h.1, if_neg (by simp [h.2])])
    | (rw [if_neg (by simp [h])])

/-- Witness for C6: a SWITCH record with SWITCH_OUT and SWITCH_OUT_PREEMPT
both set decodes to `ContextSwitch(OutWhileRunning)`. -/
theorem switch_kind_from_misc_witness :
    (RawEvent.mk PERF_RECORD_SWITCH 24576 []).parse 0 0 0 0 false =
      some (Event.contextSwitch ContextSwitchKind.OutWhileRunning) :=
  (switch_kind_from_misc 0 0 0 0 false 24576 []).1 (by decide)

/-! ## C1: truncated records -/

theorem parseProcess_none_iff (data : List Nat) :
    parseProcess data = none ↔ data.length < 24 := by
  rw [parseProcess]
  simp only [rdI32, rdU64, rdU32, rdAt]
  split_ifs <;> simp <;> omega

/-- C1 counterexample: `RawEvent::parse` on a FORK record with an empty
body panics (modelled as `none`: the `read_i32` unwrap fails) instead of
surfacing a typed failure — the Rust signature `fn parse(..) -> Event<'a>`
has no error channel. -/
theorem parse_truncated_fork_panics :
    (RawEvent.mk PERF_RECORD_FORK 0 []).parse 0 0 0 0 false = none := rfl

/-- C1 amended: `RawEvent::parse` does not surface a typed failure when a
field read would exceed the buffer — it panics. For EXIT and FORK records
it panics exactly when the body is shorter than the 24 bytes the arm
reads. -/
theorem parse_fork_panics_on_truncation (st rf rc sru : Nat) (sia : Bool)
    (misc kind : Nat) (data : List Nat)
    (hkind : kind = PERF_RECORD_EXIT ∨ kind = PERF_RECORD_FORK) :
    (RawEvent.mk kind misc data).parse st rf rc sru sia = none ↔
      data.length < 24 := by
  rw [RawEvent.parse]
  rw [if_pos hkind]
  rw [Option.map_eq_none']
  exact parseProcess_none_iff data

/-- Witness for C1's amended theorem at a concrete 10-byte FORK body. -/
theorem parse_fork_panics_on_truncation_witness :
    ((RawEvent.mk PERF_RECORD_FORK 0 (List.range 10)).parse 0 0 0 0 false = none ↔
      (List.range 10).length < 24) :=
  parse_fork_panics_on_truncation 0 0 0 0 false 0 PERF_RECORD_FORK (List.range 10)
    (Or.inr rfl)

/-! ## C5: the MMAP2 build-id branch -/

theorem encU8_length (v : Nat) : (encU8 v).length = 1 := rfl
theorem encU16_length (v : Nat) : (encU16 v).length = 2 := rfl
theorem encI32_length (v : Int) : (encI32 v).length = 4 := rfl

theorem rdU8_of_drop {buf B : List Nat} {pos v : Nat}
    (h : buf.drop pos = encU8 v ++ B) (hpos : pos ≤ buf.length) (hv : v < 2^8) :
    rdU8 buf pos = some v := by
  have := rdAt_of_drop h (encU8_length v) hpos
  rw [rdU8, this, leVal_encU8, Nat.mod_eq_of_lt hv]

theorem rdU16_of_drop {buf B : List Nat} {pos v : Nat}
    (h : buf.drop pos = encU16 v ++ B) (hpos : pos ≤ buf.length) (hv : v < 2^16) :
    rdU16 buf pos = some v := by
  have := rdAt_of_drop h (encU16_length v) hpos
  rw [rdU16, this, leVal_encU16, Nat.mod_eq_of_lt hv]

/-- `drop_chain` with the position arithmetic folded into numerals. -/
theorem drop_chain_len {buf A B : List Nat} {pos n pos' : Nat}
    (h : buf.drop pos = A ++ B) (hpos : pos ≤ buf.length)
    (hA : A.length = n) (hpos' : pos + n = pos') :
    buf.drop pos' = B ∧ pos' ≤ buf.length := by
  subst hpos'
  rw [← hA]
  exact drop_chain h hpos

/-- C5: for every MMAP2 record with the MMAP_BUILD_ID misc bit set and
`build_id_length ≤ 20`, the decoder consumes exactly 20 payload bytes for
the build-id region (after the `u8` length and the reserved `u8`/`u16`)
regardless of `build_id_length`; the emitted file_id is `BuildId` of the
first `build_id_length` of those 20 bytes; and protection, flags and path
are read starting right after the 20-byte region. -/
theorem mmap2_build_id_region (st rf rc sru : Nat) (sia : Bool) (misc : Nat)
    (pid tid : Int) (address length pageOffset : Nat)
    (bidLen r1 r2 : Nat) (region : List Nat) (prot flags : Nat)
    (pathBytes : List Nat)
    (hmisc : misc &&& PERF_RECORD_MISC_MMAP_BUILD_ID ≠ 0)
    (hpid : -2^31 ≤ pid ∧ pid < 2^31) (htid : -2^31 ≤ tid ∧ tid < 2^31)
    (haddr : address < 2^64) (hlen : length < 2^64) (hpg : pageOffset < 2^64)
    (hbid : bidLen ≤ 20) (hr1 : r1 < 2^8) (hr2 : r2 < 2^16)
    (hregion : region.length = 20)
    (hprot : prot < 2^32) (hflags : flags < 2^32) :
    (RawEvent.mk PERF_RECORD_MMAP2 misc
        (encI32 pid ++ encI32 tid ++ encU64 address ++ encU64 length ++
         encU64 pageOffset ++ encU8 bidLen ++ encU8 r1 ++ encU16 r2 ++ region ++
         encU32 prot ++ encU32 flags ++ pathBytes)).parse st rf rc sru sia =
      some (Event.mmap2
        { pid, tid, address, length, pageOffset,
          fileId := Mmap2FileId.buildId (region.take bidLen),
          protection := prot, flags,
          dsoKey := DsoKey.detect (pathBytes.takeWhile (fun b => b != 0)) misc,
          path := pathBytes.takeWhile (fun b => b != 0) }) := by
  set data := encI32 pid ++ encI32 tid ++ encU64 address ++ encU64 length ++
    encU64 pageOffset ++ encU8 bidLen ++ encU8 r1 ++ encU16 r2 ++ region ++
    encU32 prot ++ encU32 flags ++ pathBytes with hdata
  have h0 : data.drop 0 = encI32 pid ++ (encI32 tid ++ (encU64 address ++
      (encU64 length ++ (encU64 pageOffset ++ (encU8 bidLen ++ (encU8 r1 ++
      (encU16 r2 ++ (region ++ (encU32 prot ++ (encU32 flags ++
      pathBytes)))))))))) := by
    rw [List.drop_zero, hdata]
    simp [List.append_assoc]
  have hp0 : (0 : Nat) ≤ data.length := Nat.zero_le _
  obtain ⟨h1, hp1⟩ := drop_chain_len h0 hp0 (encI32_length pid)
    (show 0 + 4 = 4 by norm_num)
  obtain ⟨h2, hp2⟩ := drop_chain_len h1 hp1 (encI32_length tid)
    (show 4 + 4 = 8 by norm_num)
  obtain ⟨h3, hp3⟩ := drop_chain_len h2 hp2 (encU64_length address)
    (show 8 + 8 = 16 by norm_num)
  obtain ⟨h4, hp4⟩ := drop_chain_len h3 hp3 (encU64_length length)
    (show 16 + 8 = 24 by norm_num)
  obtain ⟨h5, hp5⟩ := drop_chain_len h4 hp4 (encU64_length pageOffset)
    (show 24 + 8 = 32 by norm_num)
  obtain ⟨h6, hp6⟩ := drop_chain_len h5 hp5 (encU8_length bidLen)
    (show 32 + 1 = 33 by norm_num)
  obtain ⟨h7, hp7⟩ := drop_chain_len h6 hp6 (encU8_length r1)
    (show 33 + 1 = 34 by norm_num)
  obtain ⟨h8, hp8⟩ := drop_chain_len h7 hp7 (encU16_length r2)
    (show 34 + 2 = 36 by norm_num)
  obtain ⟨h9, hp9⟩ := drop_chain_len h8 hp8 hregion
    (show 36 + 20 = 56 by norm_num)
  obtain ⟨h10, hp10⟩ := drop_chain_len h9 hp9 (encU32_length prot)
    (show 56 + 4 = 60 by norm_num)
  obtain ⟨h11, hp11⟩ := drop_chain_len h10 hp10 (encU32_length flags)
    (show 60 + 4 = 64 by norm_num)
  have e1 : rdI32 data 0 = some pid := rdI32_of_drop h0 hp0 hpid.1 hpid.2
  have e2 : rdI32 data 4 = some tid := rdI32_of_drop h1 hp1 htid.1 htid.2
  have e3 : rdU64 data 8 = some address := rdU64_of_drop h2 hp2 haddr
  have e4 : rdU64 data 16 = some length := rdU64_of_drop h3 hp3 hlen
  have e5 : rdU64 data 24 = some pageOffset := rdU64_of_drop h4 hp4 hpg
  have e6 : rdU8 data 32 = some bidLen := rdU8_of_drop h5 hp5 (by omega)
  have e7 : rdU8 data 33 = some r1 := rdU8_of_drop h6 hp6 hr1
  have e8 : rdU16 data 34 = some r2 := rdU16_of_drop h7 hp7 hr2
  have e10 : rdU32 data 56 = some prot := rdU32_of_drop h9 hp9 hprot
  have e11 : rdU32 data 60 = some flags := rdU32_of_drop h10 hp10 hflags
  have ebid : (data.drop 36).take bidLen = region.take bidLen := by
    rw [h8]
    exact List.take_append_of_le_length (by omega)
  have hmiscb : (misc &&& PERF_RECORD_MISC_MMAP_BUILD_ID != 0) = true := by
    simpa [bne_iff_ne] using hmisc
  have hbound : 36 + bidLen ≤ data.length := by omega
  have efid : mmap2FileId misc data = some
      (Mmap2FileId.buildId (region.take bidLen), 56) := by
    simp only [mmap2FileId, hmiscb, if_true, e6, if_pos hbid, e7, e8,
      if_pos hbound, ebid]
  have ename : takeName data 64 = pathBytes.takeWhile (fun b => b != 0) := by
    rw [takeName, h11]
  rw [RawEvent.parse]
  rw [if_neg (by norm_num [PERF_RECORD_MMAP2, PERF_RECORD_EXIT, PERF_RECORD_FORK]),
    if_neg (by norm_num [PERF_RECORD_MMAP2, PERF_RECORD_SAMPLE]),
    if_neg (by norm_num [PERF_RECORD_MMAP2, PERF_RECORD_COMM]),
    if_neg (by norm_num [PERF_RECORD_MMAP2, PERF_RECORD_MMAP]),
    if_pos rfl]
  simp only [parseMmap2, Nat.reduceAdd, e1, e2, e3, e4, e5, efid, e10, e11,
    ename, Option.map_some']

/-- Witness for C5: a concrete build-id MMAP2 record with
`build_id_length = 3`. -/
theorem mmap2_build_id_region_witness :
    (RawEvent.mk PERF_RECORD_MMAP2 (2^14) (encI32 5 ++ encI32 6 ++ encU64 7 ++
        encU64 8 ++ encU64 9 ++ encU8 3 ++ encU8 0 ++ encU16 0 ++
        (List.range 20) ++ encU32 1 ++ encU32 2 ++ [47, 97, 0])).parse
        0 0 0 0 false =
      some (Event.mmap2
        { pid := 5, tid := 6, address := 7, length := 8, pageOffset := 9,
          fileId := Mmap2FileId.buildId ((List.range 20).take 3),
          protection := 1, flags := 2,
          dsoKey := DsoKey.detect (([47, 97, 0] : List Nat).takeWhile
            (fun b => b != 0)) (2^14),
          path := ([47, 97, 0] : List Nat).takeWhile (fun b => b != 0) }) :=
  mmap2_build_id_region 0 0 0 0 false (2^14) 5 6 7 8 9 3 0 0 (List.range 20) 1 2
    [47, 97, 0] (by decide) (by constructor <;> decide) (by constructor <;> decide)
    (by decide) (by decide) (by decide) (by decide) (by decide) (by decide)
    (by decide) (by decide) (by decide)

/-! ## C4: the STACK_USER subview -/

theorem rdAt_some_le {buf : List Nat} {pos n v : Nat}
    (h : rdAt buf pos n = some v) : pos + n ≤ buf.length := by
  by_cases hc : pos + n ≤ buf.length
  · exact hc
  · rw [rdAt, if_neg hc] at h
    exact Option.noConfusion h

theorem rawGet_length_of_le {d : List Nat} {a b : Nat}
    (hab : a ≤ b) (hb : b ≤ d.length) : (rawGet d a b).length = b - a := by
  rw [rawGet, if_pos ⟨hab, hb⟩]
  simp only [List.length_take, List.length_drop]
  omega

theorem rawGet_self (d : List Nat) (a : Nat) : rawGet d a a = [] := by
  rw [rawGet]
  split
  · simp
  · rfl

/-- Inversion of the STACK_USER stage when the flag is set. -/
theorem stStack_inv_true {data : List Nat} {pos : Nat} {s : List Nat}
    {d p' : Nat} (h : stStack true data pos = some ((s, d), p')) :
    ∃ sz, rdU64 data pos = some sz ∧
      s = rawGet data (pos + 8) (pos + 8 + sz) ∧
      s.length = sz ∧
      (sz ≠ 0 → rdU64 data (pos + 8 + sz) = some d) ∧
      (sz = 0 → d = 0 ∧ s = []) := by
  rw [stStack, if_pos rfl] at h
  split at h
  · exact Option.noConfusion h
  rename_i sz hrd
  refine ⟨sz, hrd, ?_⟩
  split at h
  · rename_i hszb
    have hsz : sz ≠ 0 := by simpa [bne_iff_ne] using hszb
    split at h
    · exact Option.noConfusion h
    rename_i dyn hdy
    injection Option.some.inj h with h1 hp2
    injection h1 with hs hd
    have hle : pos + 8 + sz + 8 ≤ data.length := rdAt_some_le hdy
    refine ⟨hs.symm, ?_, fun _ => ?_, fun h0 => absurd h0 hsz⟩
    · rw [← hs, rawGet_length_of_le (by omega) (by omega)]
      omega
    · rw [hdy, hd]
  · rename_i hszb
    have hsz : sz = 0 := by simpa [bne_iff_ne] using hszb
    subst hsz
    injection Option.some.inj h with h1 hp2
    injection h1 with hs hd
    have hzero : pos + 8 + 0 = pos + 8 := by omega
    refine ⟨hs.symm, ?_, fun h0 => absurd rfl h0, fun _ => ⟨hd.symm, ?_⟩⟩
    · rw [← hs, hzero, rawGet_self]
      rfl
    · rw [← hs, hzero, rawGet_self]

/-- The STACK_USER stage when the flag is clear. -/
theorem stStack_false {data : List Nat} {pos : Nat} :
    stStack false data pos = some (([], 0), pos) := by
  rw [stStack, if_neg (by simp)]

/-- C4: for every well-formed SAMPLE record (one the decoder accepts) with
PERF_SAMPLE_STACK_USER set, the emitted Sample's stack is the subrange of
the record's bytes starting right after the declared `u64` stack size, of
length exactly that size; when the size is nonzero the dynamic_stack_size
is the trailing `u64` read after the stack bytes, and when the size is
zero — or the flag is unset — the dynamic_stack_size is 0 and the stack
view is empty. -/
theorem sample_stack_subrange (st rf rc sru : Nat) (sia : Bool) (misc : Nat)
    (data : List Nat) (ev : SampleEvent)
    (hp : (RawEvent.mk PERF_RECORD_SAMPLE misc data).parse st rf rc sru sia =
      some (Event.sample ev)) :
    (st &&& PERF_SAMPLE_STACK_USER ≠ 0 →
      ∃ pos sz, rdU64 data pos = some sz ∧
        ev.stack = rawGet data (pos + 8) (pos + 8 + sz) ∧
        ev.stack.length = sz ∧
        (sz ≠ 0 → rdU64 data (pos + 8 + sz) = some ev.dynamicStackSize) ∧
        (sz = 0 → ev.dynamicStackSize = 0 ∧ ev.stack = [])) ∧
    (st &&& PERF_SAMPLE_STACK_USER = 0 →
      ev.dynamicStackSize = 0 ∧ ev.stack = []) := by
  rw [RawEvent.parse,
    if_neg (by norm_num [PERF_RECORD_SAMPLE, PERF_RECORD_EXIT, PERF_RECORD_FORK]),
    if_pos rfl] at hp
  rw [show (RawEvent.mk PERF_RECORD_SAMPLE misc data).data = data from rfl] at hp
  rcases Option.map_eq_some'.mp hp with ⟨ev', hp', heq⟩
  have hev : ev' = ev := by injection heq
  subst hev
  clear hp heq
  rw [parseSample] at hp'
  split at hp'
  · exact Option.noConfusion hp'
  split at hp'
  · exact Option.noConfusion hp'
  split at hp'
  · exact Option.noConfusion hp'
  split at hp'
  · exact Option.noConfusion hp'
  split at hp'
  · exact Option.noConfusion hp'
  split at hp'
  · exact Option.noConfusion hp'
  split at hp'
  · exact Option.noConfusion hp'
  split at hp'
  · exact Option.noConfusion hp'
  split at hp'
  · exact Option.noConfusion hp'
  split at hp'
  · exact Option.noConfusion hp'
  split at hp'
  · exact Option.noConfusion hp'
  split at hp'
  · exact Option.noConfusion hp'
  split at hp'
  · exact Option.noConfusion hp'
  split at hp'
  · exact Option.noConfusion hp'
  split at hp'
  · exact Option.noConfusion hp'
  rename_i stackv dynv p15 hstack
  split at hp'
  · exact Option.noConfusion hp'
  split at hp'
  · exact Option.noConfusion hp'
  split at hp'
  · exact Option.noConfusion hp'
  split at hp'
  · exact Option.noConfusion hp'
  split at hp'
  · exact Option.noConfusion hp'
  split at hp'
  · exact Option.noConfusion hp'
  split at hp'
  · exact Option.noConfusion hp'
  split at hp'
  · exact Option.noConfusion hp'
  have hrec := Option.some.inj hp'
  subst hrec
  constructor
  · intro hflag
    have hb : sampleBit st PERF_SAMPLE_STACK_USER = true := by
      simp [sampleBit, bne_iff_ne]
      exact hflag
    rw [hb] at hstack
    obtain ⟨sz, h1, h2, h3, h4, h5⟩ := stStack_inv_true hstack
    exact ⟨_, sz, h1, h2, h3, h4, h5⟩
  · intro hflag
    have hb : sampleBit st PERF_SAMPLE_STACK_USER = false := by
      simp [sampleBit, bne_iff_ne]
      exact hflag
    rw [hb, stStack_false] at hstack
    injection Option.some.inj hstack with h1 hp2
    injection h1 with hs hd
    exact ⟨hd.symm, hs.symm⟩

/-- Witness for C4: a SAMPLE record consisting only of a STACK_USER field
with declared size 2, stack bytes `[170, 187]`, and trailing dynamic size
5. -/
theorem sample_stack_subrange_witness :
    ((RawEvent.mk PERF_RECORD_SAMPLE 0 (encU64 2 ++ [170, 187] ++ encU64 5)).parse
        PERF_SAMPLE_STACK_USER 0 0 0 false =
      some (Event.sample
        { timestamp := none, pid := none, tid := none, cpu := none,
          period := none, regs := none, dynamicStackSize := 5,
          stack := [170, 187], callchain := none })) ∧
    (∃ pos sz, rdU64 (encU64 2 ++ [170, 187] ++ encU64 5) pos = some sz ∧
      ([170, 187] : List Nat) =
        rawGet (encU64 2 ++ [170, 187] ++ encU64 5) (pos + 8) (pos + 8 + sz) ∧
      ([170, 187] : List Nat).length = sz ∧
      (sz ≠ 0 → rdU64 (encU64 2 ++ [170, 187] ++ encU64 5) (pos + 8 + sz) =
        some 5) ∧
      (sz = 0 → (5 : Nat) = 0 ∧ ([170, 187] : List Nat) = [])) := by
  have hparse : (RawEvent.mk PERF_RECORD_SAMPLE 0
      (encU64 2 ++ [170, 187] ++ encU64 5)).parse PERF_SAMPLE_STACK_USER 0 0 0
      false = some (Event.sample
        { timestamp := none, pid := none, tid := none, cpu := none,
          period := none, regs := none, dynamicStackSize := 5,
          stack := [170, 187], callchain := none }) := by decide
  refine ⟨hparse, ?_⟩
  exact (sample_stack_subrange PERF_SAMPLE_STACK_USER 0 0 0 false 0
    (encU64 2 ++ [170, 187] ++ encU64 5) _ hparse).1 (by decide)

/-! ## C2: the SAMPLE field order round trip

A synthetic SAMPLE payload is built by concatenating the documented
fields, each present exactly when its `sample_type` flag bit is set, and
decoding it must populate exactly the flagged optional fields with the
payload values. -/

/-- The values of every possible SAMPLE field of the documented layout. -/
structure SampleFields where
  identifier : Nat
  ip : Nat
  pid : Int
  tid : Int
  time : Nat
  addr : Nat
  sampleId : Nat
  streamId : Nat
  cpu : Nat
  cpuRes : Nat
  period : Nat
  readValue : Nat
  timeEnabled : Nat
  timeRunning : Nat
  readId : Nat
  readEntries : List (Nat × Nat)
  callchain : List Nat
  rawBytes : List Nat
  branch : List (Nat × Nat × Nat)
  hwIdx : Nat
  regsAbi : Nat
  regsBytes : List Nat
  stackBytes : List Nat
  dynSize : Nat
  weight : Nat
  dataSrc : Nat
  transaction : Nat
  intrAbi : Nat
  intrBytes : List Nat
  physAddr : Nat
  auxBytes : List Nat
  dataPageSize : Nat
  codePageSize : Nat
  deriving DecidableEq, Repr

/-- The `nr × { u64 from, u64 to, u64 flags }` encoding of BRANCH_STACK
entries. -/
def encTriples : List (Nat × Nat × Nat) → List Nat
  | [] => []
  | (a, b, c) :: rest => encU64 a ++ encU64 b ++ encU64 c ++ encTriples rest

/-- The `nr × { u64 value, optional u64 id }` encoding of grouped READ
entries. -/
def encGroupEntries (hasId : Bool) : List (Nat × Nat) → List Nat
  | [] => []
  | (v, i) :: rest => encU64 v ++ encOpt hasId (encU64 i) ++ encGroupEntries hasId rest

/-- The READ field sub-layout of §4.3. -/
def encRead (rf : Nat) (f : SampleFields) : List Nat :=
  if rf &&& PERF_FORMAT_GROUP = 0 then
    encU64 f.readValue ++
    encOpt (rf &&& PERF_FORMAT_TOTAL_TIME_ENABLED != 0) (encU64 f.timeEnabled) ++
    encOpt (rf &&& PERF_FORMAT_TOTAL_TIME_RUNNING != 0) (encU64 f.timeRunning) ++
    encOpt (rf &&& PERF_FORMAT_ID != 0) (encU64 f.readId)
  else
    encU64 f.readEntries.length ++
    encOpt (rf &&& PERF_FORMAT_TOTAL_TIME_ENABLED != 0) (encU64 f.timeEnabled) ++
    encOpt (rf &&& PERF_FORMAT_TOTAL_TIME_RUNNING != 0) (encU64 f.timeRunning) ++
    encGroupEntries (rf &&& PERF_FORMAT_ID != 0) f.readEntries

/-- The synthetic SAMPLE payload of §8: the concatenation of the fields in
the documented order, each present exactly when its flag bit is set. -/
def buildSample (st rf : Nat) (f : SampleFields) : List Nat :=
  encOpt (sampleBit st PERF_SAMPLE_IDENTIFIER) (encU64 f.identifier) ++
  encOpt (sampleBit st PERF_SAMPLE_IP) (encU64 f.ip) ++
  encOpt (sampleBit st PERF_SAMPLE_TID) (encI32 f.pid ++ encI32 f.tid) ++
  encOpt (sampleBit st PERF_SAMPLE_TIME) (encU64 f.time) ++
  encOpt (sampleBit st PERF_SAMPLE_ADDR) (encU64 f.addr) ++
  encOpt (sampleBit st PERF_SAMPLE_ID) (encU64 f.sampleId) ++
  encOpt (sampleBit st PERF_SAMPLE_STREAM_ID) (encU64 f.streamId) ++
  encOpt (sampleBit st PERF_SAMPLE_CPU) (encU32 f.cpu ++ encU32 f.cpuRes) ++
  encOpt (sampleBit st PERF_SAMPLE_PERIOD) (encU64 f.period) ++
  encOpt (sampleBit st PERF_SAMPLE_READ) (encRead rf f) ++
  encOpt (sampleBit st PERF_SAMPLE_CALLCHAIN)
    (encU64 f.callchain.length ++ encU64List f.callchain) ++
  encOpt (sampleBit st PERF_SAMPLE_RAW) (encU32 f.rawBytes.length ++ f.rawBytes) ++
  encOpt (sampleBit st PERF_SAMPLE_BRANCH_STACK)
    (encU64 f.branch.length ++
     encOpt (sampleBit st PERF_SAMPLE_BRANCH_HW_INDEX) (encU64 f.hwIdx) ++
     encTriples f.branch) ++
  encOpt (sampleBit st PERF_SAMPLE_REGS_USER) (encU64 f.regsAbi ++ f.regsBytes) ++
  encOpt (sampleBit st PERF_SAMPLE_STACK_USER)
    (encU64 f.stackBytes.length ++ f.stackBytes ++
     (if f.stackBytes.length ≠ 0 then encU64 f.dynSize else [])) ++
  encOpt (sampleBit st PERF_SAMPLE_WEIGHT) (encU64 f.weight) ++
  encOpt (sampleBit st PERF_SAMPLE_DATA_SRC) (encU64 f.dataSrc) ++
  encOpt (sampleBit st PERF_SAMPLE_TRANSACTION) (encU64 f.transaction) ++
  encOpt (sampleBit st PERF_SAMPLE_REGS_INTR)
    (encU64 f.intrAbi ++ (if f.intrAbi = 0 then [] else f.intrBytes)) ++
  encOpt (sampleBit st PERF_SAMPLE_PHYS_ADDR) (encU64 f.physAddr) ++
  encOpt (sampleBit st PERF_SAMPLE_AUX) (encU64 f.auxBytes.length ++ f.auxBytes) ++
  encOpt (sampleBit st PERF_SAMPLE_DATA_PAGE_SIZE) (encU64 f.dataPageSize) ++
  encOpt (sampleBit st PERF_SAMPLE_CODE_PAGE_SIZE) (encU64 f.codePageSize)

/-- Well-formedness of the field values: every machine integer is in range
for its width, the register views have `8 · regs_count` bytes, and the
REGS_USER abi word is nonzero (the register field is genuinely present). -/
def SampleFields.WF (rc : Nat) (f : SampleFields) : Prop :=
  f.identifier < 2^64 ∧ f.ip < 2^64 ∧
  (-2^31 ≤ f.pid ∧ f.pid < 2^31) ∧ (-2^31 ≤ f.tid ∧ f.tid < 2^31) ∧
  f.time < 2^64 ∧ f.addr < 2^64 ∧ f.sampleId < 2^64 ∧ f.streamId < 2^64 ∧
  f.cpu < 2^32 ∧ f.cpuRes < 2^32 ∧ f.period < 2^64 ∧
  f.readValue < 2^64 ∧ f.timeEnabled < 2^64 ∧ f.timeRunning < 2^64 ∧
  f.readId < 2^64 ∧ f.readEntries.length < 2^64 ∧
  (∀ e ∈ f.readEntries, e.1 < 2^64 ∧ e.2 < 2^64) ∧
  f.callchain.length < 2^64 ∧ (∀ a ∈ f.callchain, a < 2^64) ∧
  f.rawBytes.length < 2^32 ∧
  f.branch.length < 2^64 ∧ f.hwIdx < 2^64 ∧
  f.regsAbi < 2^64 ∧ f.regsAbi ≠ 0 ∧ f.regsBytes.length = 8 * rc ∧
  f.stackBytes.length < 2^64 ∧ f.dynSize < 2^64 ∧
  f.weight < 2^64 ∧ f.dataSrc < 2^64 ∧ f.transaction < 2^64 ∧
  f.intrAbi < 2^64 ∧ f.intrBytes.length = 8 * rc ∧
  f.physAddr < 2^64 ∧ f.auxBytes.length < 2^64 ∧
  f.dataPageSize < 2^64 ∧ f.codePageSize < 2^64

/-! ### Per-stage run lemmas (drop form) -/

theorem stSkipU64_run {buf B : List Nat} {pos v : Nat} {g : Bool}
    (h : buf.drop pos = encOpt g (encU64 v) ++ B) (hpos : pos ≤ buf.length)
    (hv : v < 2^64) :
    stSkipU64 g buf pos = some (pos + (encOpt g (encU64 v)).length) := by
  cases g
  · simp only [encOpt_false] at h ⊢
    simp [stSkipU64]
  · simp only [encOpt_true] at h ⊢
    rw [stSkipU64, if_pos rfl, rdU64_of_drop h hpos hv]
    simp [encU64]

theorem stOptU64_run {buf B : List Nat} {pos v : Nat} {g : Bool}
    (h : buf.drop pos = encOpt g (encU64 v) ++ B) (hpos : pos ≤ buf.length)
    (hv : v < 2^64) :
    stOptU64 g buf pos =
      some ((if g then some v else none), pos + (encOpt g (encU64 v)).length) := by
  cases g
  · simp only [encOpt_false] at h ⊢
    simp [stOptU64]
  · simp only [encOpt_true] at h ⊢
    rw [stOptU64, if_pos rfl, rdU64_of_drop h hpos hv]
    simp [encU64]

theorem stTid_run {buf B : List Nat} {pos : Nat} {a b : Int} {g : Bool}
    (h : buf.drop pos = encOpt g (encI32 a ++ encI32 b) ++ B)
    (hpos : pos ≤ buf.length)
    (ha : -2^31 ≤ a ∧ a < 2^31) (hb : -2^31 ≤ b ∧ b < 2^31) :
    stTid g buf pos =
      some (((if g then some a else none), (if g then some b else none)),
        pos + (encOpt g (encI32 a ++ encI32 b)).length) := by
  cases g
  · simp only [encOpt_false] at h ⊢
    simp [stTid]
  · simp only [encOpt_true] at h ⊢
    rw [List.append_assoc] at h
    obtain ⟨h2, hp2⟩ := drop_chain h hpos
    rw [encI32_length] at h2 hp2
    rw [stTid, if_pos rfl, rdI32_of_drop h hpos ha.1 ha.2,
      rdI32_of_drop h2 hp2 hb.1 hb.2]
    simp [encI32, encU32]

theorem stCpu_run {buf B : List Nat} {pos c r : Nat} {g : Bool}
    (h : buf.drop pos = encOpt g (encU32 c ++ encU32 r) ++ B)
    (hpos : pos ≤ buf.length) (hc : c < 2^32) (hr : r < 2^32) :
    stCpu g buf pos =
      some ((if g then some c else none),
        pos + (encOpt g (encU32 c ++ encU32 r)).length) := by
  cases g
  · simp only [encOpt_false] at h ⊢
    simp [stCpu]
  · simp only [encOpt_true] at h ⊢
    rw [List.append_assoc] at h
    obtain ⟨h2, hp2⟩ := drop_chain h hpos
    rw [encU32_length] at h2 hp2
    rw [stCpu, if_pos rfl, rdU32_of_drop h hpos hc, rdU32_of_drop h2 hp2 hr]
    simp [encU32]

theorem rdChain_run {l : List Nat} {buf B : List Nat} {pos : Nat}
    (h : buf.drop pos = encU64List l ++ B) (hpos : pos ≤ buf.length)
    (hl : ∀ a ∈ l, a < 2^64) :
    rdChain l.length buf pos = some (l, pos + (encU64List l).length) := by
  induction l generalizing pos B with
  | nil =>
    simp only [encU64List] at h ⊢
    simp [rdChain]
  | cons a rest ih =>
    simp only [encU64List] at h ⊢
    rw [List.append_assoc] at h
    obtain ⟨h2, hp2⟩ := drop_chain h hpos
    rw [encU64_length] at h2 hp2
    have ha : a < 2^64 := hl a (by simp)
    have htail : ∀ x ∈ rest, x < 2^64 := fun x hx => hl x (by simp [hx])
    rw [List.length_cons, rdChain, rdU64_of_drop h hpos ha, ih h2 hp2 htail]
    simp [encU64]
    omega

theorem skipTriples_run {l : List (Nat × Nat × Nat)} {buf B : List Nat}
    {pos : Nat} (h : buf.drop pos = encTriples l ++ B)
    (hpos : pos ≤ buf.length) :
    skipTriples l.length buf pos = some (pos + (encTriples l).length) := by
  induction l generalizing pos B with
  | nil =>
    simp only [encTriples] at h ⊢
    simp [skipTriples]
  | cons e rest ih =>
    obtain ⟨a, b, c⟩ := e
    simp only [encTriples] at h ⊢
    rw [List.append_assoc, List.append_assoc, List.append_assoc] at h
    obtain ⟨h2, hp2⟩ := drop_chain h hpos
    rw [encU64_length] at h2 hp2
    obtain ⟨h3, hp3⟩ := drop_chain h2 hp2
    rw [encU64_length] at h3 hp3
    obtain ⟨h4, hp4⟩ := drop_chain h3 hp3
    rw [encU64_length] at h4 hp4
    have ea : rdU64 buf pos = some (a % 2^64) := by
      have := rdAt_of_drop h (encU64_length a) hpos
      rw [rdU64, this, leVal_encU64]
    have eb : rdU64 buf (pos + 8) = some (b % 2^64) := by
      have := rdAt_of_drop h2 (encU64_length b) hp2
      rw [rdU64, this, leVal_encU64]
    have ec : rdU64 buf (pos + 8 + 8) = some (c % 2^64) := by
      have := rdAt_of_drop h3 (encU64_length c) hp3
      rw [rdU64, this, leVal_encU64]
    have h4' : buf.drop (pos + 24) = encTriples rest ++ B := by
      rw [show pos + 24 = pos + 8 + 8 + 8 by omega]
      exact h4
    rw [List.length_cons, skipTriples, ea, eb,
      show pos + 8 + 8 = pos + 16 by omega] at *
    rw [show pos + 16 = pos + 8 + 8 by omega, ec,
      ih h4' (by omega)]
    simp [encU64, List.length_append]
    omega

theorem skipGroupEntries_run {hasId : Bool} {l : List (Nat × Nat)}
    {buf B : List Nat} {pos : Nat}
    (h : buf.drop pos = encGroupEntries hasId l ++ B)
    (hpos : pos ≤ buf.length) (hl : ∀ e ∈ l, e.1 < 2^64 ∧ e.2 < 2^64) :
    skipGroupEntries hasId l.length buf pos =
      some (pos + (encGroupEntries hasId l).length) := by
  induction l generalizing pos B with
  | nil =>
    simp only [encGroupEntries] at h ⊢
    simp [skipGroupEntries]
  | cons e rest ih =>
    obtain ⟨v, i⟩ := e
    have hv : v < 2^64 := (hl (v, i) (by simp)).1
    have hi : i < 2^64 := (hl (v, i) (by simp)).2
    have htail : ∀ x ∈ rest, x.1 < 2^64 ∧ x.2 < 2^64 :=
      fun x hx => hl x (by simp [hx])
    simp only [encGroupEntries] at h ⊢
    rw [List.append_assoc, List.append_assoc] at h
    obtain ⟨h2, hp2⟩ := drop_chain h hpos
    rw [encU64_length] at h2 hp2
    obtain ⟨h3, hp3⟩ := drop_chain h2 hp2
    simp only [List.length_cons, skipGroupEntries, rdU64_of_drop h hpos hv,
      stSkipU64_run h2 hp2 hi, ih h3 hp3 htail]
    simp only [encOpt, List.length_append, Option.some.injEq]
    simp [encU64]
    omega

theorem stRead_run {buf B : List Nat} {pos rf : Nat} {g : Bool}
    {f : SampleFields}
    (h : buf.drop pos = encOpt g (encRead rf f) ++ B) (hpos : pos ≤ buf.length)
    (hv : f.readValue < 2^64) (hte : f.timeEnabled < 2^64)
    (htr : f.timeRunning < 2^64) (hid : f.readId < 2^64)
    (hnr : f.readEntries.length < 2^64)
    (hent : ∀ e ∈ f.readEntries, e.1 < 2^64 ∧ e.2 < 2^64) :
    stRead g rf buf pos = some (pos + (encOpt g (encRead rf f)).length) := by
  cases g
  · simp only [encOpt_false] at h ⊢
    simp [stRead]
  · simp only [encOpt_true] at h ⊢
    rw [stRead, if_pos rfl]
    by_cases hg : rf &&& PERF_FORMAT_GROUP = 0
    · simp only [encRead, if_pos hg] at h ⊢
      rw [List.append_assoc, List.append_assoc, List.append_assoc] at h
      obtain ⟨h2, hp2⟩ := drop_chain h hpos
      rw [encU64_length] at h2 hp2
      obtain ⟨h3, hp3⟩ := drop_chain h2 hp2
      obtain ⟨h4, hp4⟩ := drop_chain h3 hp3
      simp only [if_pos hg, rdU64_of_drop h hpos hv, stSkipU64_run h2 hp2 hte,
        stSkipU64_run h3 hp3 htr, stSkipU64_run h4 hp4 hid]
      simp [Prod.mk.injEq, List.length_append, encU64_length, encU32_length]
      all_goals omega
    · simp only [encRead, if_neg hg] at h ⊢
      simp only [List.append_assoc] at h
      obtain ⟨h2, hp2⟩ := drop_chain h hpos
      rw [encU64_length] at h2 hp2
      obtain ⟨h3, hp3⟩ := drop_chain h2 hp2
      obtain ⟨h4, hp4⟩ := drop_chain h3 hp3
      simp only [if_neg hg, rdU64_of_drop h hpos hnr, stSkipU64_run h2 hp2 hte,
        stSkipU64_run h3 hp3 htr, skipGroupEntries_run h4 hp4 hent]
      simp [Prod.mk.injEq, List.length_append, encU64_length, encU32_length]
      all_goals omega

theorem stCallchain_run {buf B : List Nat} {pos : Nat} {g : Bool}
    {chain : List Nat}
    (h : buf.drop pos = encOpt g (encU64 chain.length ++ encU64List chain) ++ B)
    (hpos : pos ≤ buf.length) (hn : chain.length < 2^64)
    (hc : ∀ a ∈ chain, a < 2^64) :
    stCallchain g buf pos =
      some ((if g then some chain else none),
        pos + (encOpt g (encU64 chain.length ++ encU64List chain)).length) := by
  cases g
  · simp only [encOpt_false] at h ⊢
    simp [stCallchain]
  · simp only [encOpt_true] at h ⊢
    rw [List.append_assoc] at h
    obtain ⟨h2, hp2⟩ := drop_chain h hpos
    rw [encU64_length] at h2 hp2
    rw [stCallchain, if_pos rfl]
    simp only [rdU64_of_drop h hpos hn, rdChain_run h2 hp2 hc]
    simp [Prod.mk.injEq, List.length_append, encU64_length, encU32_length]
    all_goals omega

theorem stRaw_run {buf B : List Nat} {pos : Nat} {g : Bool} {bytes : List Nat}
    (h : buf.drop pos = encOpt g (encU32 bytes.length ++ bytes) ++ B)
    (hpos : pos ≤ buf.length) (hn : bytes.length < 2^32) :
    stRaw g buf pos =
      some (pos + (encOpt g (encU32 bytes.length ++ bytes)).length) := by
  cases g
  · simp only [encOpt_false] at h ⊢
    simp [stRaw]
  · simp only [encOpt_true] at h ⊢
    rw [List.append_assoc] at h
    rw [stRaw, if_pos rfl, rdU32_of_drop h hpos hn]
    simp [Prod.mk.injEq, List.length_append, encU32_length]
    all_goals omega

theorem stBranch_run {buf B : List Nat} {pos : Nat} {gB gHw : Bool}
    {entries : List (Nat × Nat × Nat)} {hwIdx : Nat}
    (h : buf.drop pos = encOpt gB (encU64 entries.length ++
      encOpt gHw (encU64 hwIdx) ++ encTriples entries) ++ B)
    (hpos : pos ≤ buf.length) (hn : entries.length < 2^64)
    (hw : hwIdx < 2^64) :
    stBranch gB gHw buf pos =
      some (pos + (encOpt gB (encU64 entries.length ++
        encOpt gHw (encU64 hwIdx) ++ encTriples entries)).length) := by
  cases gB
  · simp only [encOpt_false] at h ⊢
    simp [stBranch]
  · simp only [encOpt_true] at h ⊢
    rw [List.append_assoc, List.append_assoc] at h
    obtain ⟨h2, hp2⟩ := drop_chain h hpos
    rw [encU64_length] at h2 hp2
    obtain ⟨h3, hp3⟩ := drop_chain h2 hp2
    rw [stBranch, if_pos rfl]
    simp only [rdU64_of_drop h hpos hn, stSkipU64_run h2 hp2 hw,
      skipTriples_run h3 hp3]
    simp [Prod.mk.injEq, List.length_append, encU64_length, encU32_length]
    all_goals omega

theorem stRegsUser_run (sru : Nat) {buf B : List Nat} {pos rc : Nat}
    {g : Bool} {abi : Nat} {words : List Nat}
    (h : buf.drop pos = encOpt g (encU64 abi ++ words) ++ B)
    (hpos : pos ≤ buf.length) (habi : abi < 2^64) (hne : abi ≠ 0)
    (hw : words.length = 8 * rc) :
    stRegsUser g rc sru buf pos =
      some ((if g then some (Regs.new sru ⟨words⟩) else none),
        pos + (encOpt g (encU64 abi ++ words)).length) := by
  cases g
  · simp only [encOpt_false] at h ⊢
    simp [stRegsUser]
  · simp only [encOpt_true] at h ⊢
    rw [List.append_assoc] at h
    obtain ⟨h2, hp2⟩ := drop_chain h hpos
    rw [encU64_length] at h2 hp2
    obtain ⟨h3, hp3⟩ := drop_chain h2 hp2
    have hget : rawGet buf (pos + 8) (pos + 8 + rc * 8) = words := by
      rw [rawGet, if_pos ⟨by omega, by omega⟩, h2,
        show pos + 8 + rc * 8 - (pos + 8) = words.length by omega]
      exact List.take_left words B
    rw [stRegsUser, if_pos rfl]
    simp only [rdU64_of_drop h hpos habi, if_neg hne, hget]
    simp [Prod.mk.injEq, List.length_append, encU64_length, encU32_length]
    all_goals omega

theorem stStack_run {buf B : List Nat} {pos : Nat} {g : Bool}
    {bytes : List Nat} {dyn : Nat}
    (h : buf.drop pos = encOpt g (encU64 bytes.length ++ bytes ++
      (if bytes.length ≠ 0 then encU64 dyn else [])) ++ B)
    (hpos : pos ≤ buf.length) (hn : bytes.length < 2^64) (hd : dyn < 2^64) :
    stStack g buf pos =
      some (((if g then bytes else []),
        (if g then (if bytes.length ≠ 0 then dyn else 0) else 0)),
        pos + (encOpt g (encU64 bytes.length ++ bytes ++
          (if bytes.length ≠ 0 then encU64 dyn else []))).length) := by
  cases g
  · simp only [encOpt_false] at h ⊢
    simp [stStack]
  · simp only [encOpt_true] at h ⊢
    by_cases hbl : bytes.length = 0
    · have hbytes : bytes = [] := List.length_eq_zero.mp hbl
      subst hbytes
      rw [stStack, if_pos rfl]
      have h0 : buf.drop pos = encU64 0 ++ B := by
        simpa using h
      have hrd : rdU64 buf pos = some 0 := rdU64_of_drop h0 hpos (by norm_num)
      simp only [List.length_nil, hrd, bne_self_eq_false, Bool.false_eq_true,
        if_false, Nat.add_zero, rawGet_self]
      simp [encU64_length]
    · simp only [ne_eq, hbl, not_false_eq_true, if_pos] at h ⊢
      rw [List.append_assoc, List.append_assoc] at h
      obtain ⟨h2, hp2⟩ := drop_chain h hpos
      rw [encU64_length] at h2 hp2
      obtain ⟨h3, hp3⟩ := drop_chain h2 hp2
      have hget : rawGet buf (pos + 8) (pos + 8 + bytes.length) = bytes := by
        rw [rawGet, if_pos ⟨by omega, by omega⟩, h2,
          show pos + 8 + bytes.length - (pos + 8) = bytes.length by omega]
        exact List.take_left bytes (encU64 dyn ++ B)
      rw [stStack, if_pos rfl]
      simp only [rdU64_of_drop h hpos hn,
        (by simpa [bne_iff_ne] using hbl : (bytes.length != 0) = true),
        if_true, rdU64_of_drop h3 hp3 hd, hget]
      simp [Prod.mk.injEq, List.length_append, encU64_length, encU32_length]
      all_goals omega

theorem stRegsIntr_run {buf B : List Nat} {pos rc : Nat} {g : Bool}
    {abi : Nat} {words : List Nat}
    (h : buf.drop pos = encOpt g (encU64 abi ++
      (if abi = 0 then [] else words)) ++ B)
    (hpos : pos ≤ buf.length) (habi : abi < 2^64)
    (hw : words.length = 8 * rc) :
    stRegsIntr g rc buf pos =
      some (pos + (encOpt g (encU64 abi ++
        (if abi = 0 then [] else words))).length) := by
  cases g
  · simp only [encOpt_false] at h ⊢
    simp [stRegsIntr]
  · simp only [encOpt_true] at h ⊢
    rw [List.append_assoc] at h
    rw [stRegsIntr, if_pos rfl]
    simp only [rdU64_of_drop h hpos habi]
    by_cases h0 : abi = 0
    · simp [if_pos h0, Prod.mk.injEq, List.length_append, encU64_length]
    · simp [if_neg h0, Prod.mk.injEq, List.length_append, encU64_length]
      all_goals omega

theorem stAux_run {buf B : List Nat} {pos : Nat} {g : Bool} {bytes : List Nat}
    (h : buf.drop pos = encOpt g (encU64 bytes.length ++ bytes) ++ B)
    (hpos : pos ≤ buf.length) (hn : bytes.length < 2^64) :
    stAux g buf pos =
      some (pos + (encOpt g (encU64 bytes.length ++ bytes)).length) := by
  cases g
  · simp only [encOpt_false] at h ⊢
    simp [stAux]
  · simp only [encOpt_true] at h ⊢
    rw [List.append_assoc] at h
    rw [stAux, if_pos rfl, rdU64_of_drop h hpos hn]
    simp [Prod.mk.injEq, List.length_append, encU64_length]
    all_goals omega

/-- C2: for every `sample_type` bitmask (and read format, register count
and register mask), decoding a synthetic SAMPLE payload built by
concatenating the documented fields in order, each present exactly when
its flag bit is set, yields an `Event::Sample` whose populated optional
fields (timestamp, pid/tid, cpu, period, regs, callchain) are exactly
those whose flag bits are set, with the corresponding payload values. -/
theorem sample_field_order (st rf rc sru : Nat) (sia : Bool) (misc : Nat)
    (f : SampleFields) (hwf : SampleFields.WF rc f) :
    (RawEvent.mk PERF_RECORD_SAMPLE misc (buildSample st rf f)).parse
        st rf rc sru sia =
      some (Event.sample
        { timestamp := if sampleBit st PERF_SAMPLE_TIME then some f.time else none,
          pid := if sampleBit st PERF_SAMPLE_TID then some f.pid else none,
          tid := if sampleBit st PERF_SAMPLE_TID then some f.tid else none,
          cpu := if sampleBit st PERF_SAMPLE_CPU then some f.cpu else none,
          period := if sampleBit st PERF_SAMPLE_PERIOD then some f.period else none,
          regs := if sampleBit st PERF_SAMPLE_REGS_USER then
            some (Regs.new sru ⟨f.regsBytes⟩) else none,
          dynamicStackSize := if sampleBit st PERF_SAMPLE_STACK_USER then
            (if f.stackBytes.length ≠ 0 then f.dynSize else 0) else 0,
          stack := if sampleBit st PERF_SAMPLE_STACK_USER then f.stackBytes else [],
          callchain := if sampleBit st PERF_SAMPLE_CALLCHAIN then
            some f.callchain else none }) := by
  obtain ⟨w1, w2, wpid, wtid, w5, w6, w7, w8, w9, w10, w11, w12, w13, w14,
    w15, w16, w17, w18, w19, w20, w21, w22, w23, w24, w25, w26, w27, w28,
    w29, w30, w31, w32, w33, w34, w35, w36⟩ := hwf
  set data := buildSample st rf f with hdata
  rw [RawEvent.parse,
    if_neg (by norm_num [PERF_RECORD_SAMPLE, PERF_RECORD_EXIT, PERF_RECORD_FORK]),
    if_pos rfl]
  rw [show (RawEvent.mk PERF_RECORD_SAMPLE misc data).data = data from rfl]
  have h0 : data.drop 0 =
      encOpt (sampleBit st PERF_SAMPLE_IDENTIFIER) (encU64 f.identifier) ++
      (encOpt (sampleBit st PERF_SAMPLE_IP) (encU64 f.ip) ++
      (encOpt (sampleBit st PERF_SAMPLE_TID) (encI32 f.pid ++ encI32 f.tid) ++
      (encOpt (sampleBit st PERF_SAMPLE_TIME) (encU64 f.time) ++
      (encOpt (sampleBit st PERF_SAMPLE_ADDR) (encU64 f.addr) ++
      (encOpt (sampleBit st PERF_SAMPLE_ID) (encU64 f.sampleId) ++
      (encOpt (sampleBit st PERF_SAMPLE_STREAM_ID) (encU64 f.streamId) ++
      (encOpt (sampleBit st PERF_SAMPLE_CPU) (encU32 f.cpu ++ encU32 f.cpuRes) ++
      (encOpt (sampleBit st PERF_SAMPLE_PERIOD) (encU64 f.period) ++
      (encOpt (sampleBit st PERF_SAMPLE_READ) (encRead rf f) ++
      (encOpt (sampleBit st PERF_SAMPLE_CALLCHAIN) (encU64 f.callchain.length ++ encU64List f.callchain) ++
      (encOpt (sampleBit st PERF_SAMPLE_RAW) (encU32 f.rawBytes.length ++ f.rawBytes) ++
      (encOpt (sampleBit st PERF_SAMPLE_BRANCH_STACK) (encU64 f.branch.length ++ encOpt (sampleBit st PERF_SAMPLE_BRANCH_HW_INDEX) (encU64 f.hwIdx) ++ encTriples f.branch) ++
      (encOpt (sampleBit st PERF_SAMPLE_REGS_USER) (encU64 f.regsAbi ++ f.regsBytes) ++
      (encOpt (sampleBit st PERF_SAMPLE_STACK_USER) (encU64 f.stackBytes.length ++ f.stackBytes ++ (if f.stackBytes.length ≠ 0 then encU64 f.dynSize else [])) ++
      (encOpt (sampleBit st PERF_SAMPLE_WEIGHT) (encU64 f.weight) ++
      (encOpt (sampleBit st PERF_SAMPLE_DATA_SRC) (encU64 f.dataSrc) ++
      (encOpt (sampleBit st PERF_SAMPLE_TRANSACTION) (encU64 f.transaction) ++
      (encOpt (sampleBit st PERF_SAMPLE_REGS_INTR) (encU64 f.intrAbi ++ (if f.intrAbi = 0 then [] else f.intrBytes)) ++
      (encOpt (sampleBit st PERF_SAMPLE_PHYS_ADDR) (encU64 f.physAddr) ++
      (encOpt (sampleBit st PERF_SAMPLE_AUX) (encU64 f.auxBytes.length ++ f.auxBytes) ++
      (encOpt (sampleBit st PERF_SAMPLE_DATA_PAGE_SIZE) (encU64 f.dataPageSize) ++
      (encOpt (sampleBit st PERF_SAMPLE_CODE_PAGE_SIZE) (encU64 f.codePageSize))))))))))))))))))))))) := by
    rw [List.drop_zero]
    simp only [hdata, buildSample, List.append_assoc]
  have hp0 : (0 : Nat) ≤ data.length := Nat.zero_le _
  have s1 := stSkipU64_run h0 hp0 w1
  obtain ⟨h1, hp1⟩ := drop_chain h0 hp0
  have s2 := stSkipU64_run h1 hp1 w2
  obtain ⟨h2, hp2⟩ := drop_chain h1 hp1
  have s3 := stTid_run h2 hp2 wpid wtid
  obtain ⟨h3, hp3⟩ := drop_chain h2 hp2
  have s4 := stOptU64_run h3 hp3 w5
  obtain ⟨h4, hp4⟩ := drop_chain h3 hp3
  have s5 := stSkipU64_run h4 hp4 w6
  obtain ⟨h5, hp5⟩ := drop_chain h4 hp4
  have s6 := stSkipU64_run h5 hp5 w7
  obtain ⟨h6, hp6⟩ := drop_chain h5 hp5
  have s7 := stSkipU64_run h6 hp6 w8
  obtain ⟨h7, hp7⟩ := drop_chain h6 hp6
  have s8 := stCpu_run h7 hp7 w9 w10
  obtain ⟨h8, hp8⟩ := drop_chain h7 hp7
  have s9 := stOptU64_run h8 hp8 w11
  obtain ⟨h9, hp9⟩ := drop_chain h8 hp8
  have s10 := stRead_run h9 hp9 w12 w13 w14 w15 w16 w17
  obtain ⟨h10, hp10⟩ := drop_chain h9 hp9
  have s11 := stCallchain_run h10 hp10 w18 w19
  obtain ⟨h11, hp11⟩ := drop_chain h10 hp10
  have s12 := stRaw_run h11 hp11 w20
  obtain ⟨h12, hp12⟩ := drop_chain h11 hp11
  have s13 := stBranch_run h12 hp12 w21 w22
  obtain ⟨h13, hp13⟩ := drop_chain h12 hp12
  have s14 := stRegsUser_run sru h13 hp13 w23 w24 w25
  obtain ⟨h14, hp14⟩ := drop_chain h13 hp13
  have s15 := stStack_run h14 hp14 w26 w27
  obtain ⟨h15, hp15⟩ := drop_chain h14 hp14
  have s16 := stSkipU64_run h15 hp15 w28
  obtain ⟨h16, hp16⟩ := drop_chain h15 hp15
  have s17 := stSkipU64_run h16 hp16 w29
  obtain ⟨h17, hp17⟩ := drop_chain h16 hp16
  have s18 := stSkipU64_run h17 hp17 w30
  obtain ⟨h18, hp18⟩ := drop_chain h17 hp17
  have s19 := stRegsIntr_run h18 hp18 w31 w32
  obtain ⟨h19, hp19⟩ := drop_chain h18 hp18
  have s20 := stSkipU64_run h19 hp19 w33
  obtain ⟨h20, hp20⟩ := drop_chain h19 hp19
  have s21 := stAux_run h20 hp20 w34
  obtain ⟨h21, hp21⟩ := drop_chain h20 hp20
  have s22 := stSkipU64_run h21 hp21 w35
  obtain ⟨h22, hp22⟩ := drop_chain h21 hp21
  have h22' := (List.append_nil (encOpt (sampleBit st PERF_SAMPLE_CODE_PAGE_SIZE) (encU64 f.codePageSize))).symm ▸ h22
  have s23 := stSkipU64_run h22' hp22 w36
  simp only [parseSample, s1, s2, s3, s4, s5, s6, s7, s8, s9, s10, s11, s12, s13, s14, s15, s16, s17, s18, s19, s20, s21, s22, s23,
    Option.map_some']

/-- Witness for C2: `sample_type = TID|TIME|CALLCHAIN` (scenario 4 of §8)
with pid=tid=1, time=42 and callchain `[0xAA, 0xBB]`. -/
theorem sample_field_order_witness :
    SampleFields.WF 0
      ⟨0, 0, 1, 1, 42, 0, 0, 0, 0, 0, 0, 0, 0, 0, 0, [], [170, 187], [], [],
       0, 1, [], [], 0, 0, 0, 0, 0, [], 0, [], 0, 0⟩ ∧
    (RawEvent.mk PERF_RECORD_SAMPLE 0
        (buildSample (PERF_SAMPLE_TID + PERF_SAMPLE_TIME + PERF_SAMPLE_CALLCHAIN) 0
          ⟨0, 0, 1, 1, 42, 0, 0, 0, 0, 0, 0, 0, 0, 0, 0, [], [170, 187], [], [],
           0, 1, [], [], 0, 0, 0, 0, 0, [], 0, [], 0, 0⟩)).parse
        (PERF_SAMPLE_TID + PERF_SAMPLE_TIME + PERF_SAMPLE_CALLCHAIN) 0 0 0 false =
      some (Event.sample
        { timestamp := some 42, pid := some 1, tid := some 1, cpu := none,
          period := none, regs := none, dynamicStackSize := 0, stack := [],
          callchain := some [170, 187] }) := by
  constructor
  · unfold SampleFields.WF
    decide
  · have := sample_field_order
      (PERF_SAMPLE_TID + PERF_SAMPLE_TIME + PERF_SAMPLE_CALLCHAIN) 0 0 0 false 0
      ⟨0, 0, 1, 1, 42, 0, 0, 0, 0, 0, 0, 0, 0, 0, 0, [], [170, 187], [], [],
       0, 1, [], [], 0, 0, 0, 0, 0, [], 0, [], 0, 0⟩
      (by unfold SampleFields.WF; decide)
    simpa using this

/-! ## ETW `TRACE_EVENT_INFO` schema decoder
(src/etw-reader/src/etw_types.rs)

`TraceEventInfoRaw` owns an opaque byte buffer (`info: Vec<u8>`) and reads
`TRACE_EVENT_INFO` header fields at fixed byte offsets (the Rust code casts
the buffer to the `windows` crate's struct; the offsets and the struct
sizes below are those of the published TDH ABI the spec's §6 refers to).
A Rust panic (failed `assert!`, `panic!`) is modelled as `Except.error`. -/

/-- `sizeof(TRACE_EVENT_INFO)` — the header including the declared
one-element trailing `EventPropertyInfoArray`. -/
def traceEventInfoSize : Nat := 136

/-- `sizeof(EVENT_PROPERTY_INFO)`. -/
def eventPropertyInfoSize : Nat := 24

/-- Unchecked little-endian `u32` field read at a byte offset (the source
reads through a struct cast, with no bounds check). -/
def leU32At (info : List Nat) (off : Nat) : Nat :=
  leVal ((info.drop off).take 4)

/-- Unchecked little-endian `u16` field read at a byte offset. -/
def leU16At (info : List Nat) (off : Nat) : Nat :=
  leVal ((info.drop off).take 2)

def providerNameOffset (info : List Nat) : Nat := leU32At info 52
def taskNameOffset (info : List Nat) : Nat := leU32At info 68
def opcodeNameOffset (info : List Nat) : Nat := leU32At info 72
def propertyCount (info : List Nat) : Nat := leU32At info 100

/-- Modelled from the spec: `utils::parse_unk_size_null_utf16_string` (its
file is not among the sources): "Strings terminate at the first u16 zero";
the result is represented as the list of its UTF-16 code units. -/
def parseNulUtf16 : List Nat → List Nat
  | a :: b :: rest =>
    if a + 256 * b = 0 then [] else (a + 256 * b) :: parseNulUtf16 rest
  | _ => []

/-- All UTF-16 code units of a byte buffer (little-endian pairs). -/
def utf16Units : List Nat → List Nat
  | a :: b :: rest => (a + 256 * b) :: utf16Units rest
  | _ => []

/-- The scanned string is exactly the code units before the first zero. -/
theorem parseNulUtf16_eq_takeWhile (bs : List Nat) :
    parseNulUtf16 bs = (utf16Units bs).takeWhile (fun u => u != 0) := by
  match bs with
  | [] => rfl
  | [a] => rfl
  | a :: b :: rest =>
    rw [parseNulUtf16, utf16Units]
    by_cases h : a + 256 * b = 0
    · simp [h, List.takeWhile_cons]
    · simp [h, List.takeWhile_cons, parseNulUtf16_eq_takeWhile rest]

/-- `&self.info[off..]`: panics (`none`) when `off` is past the end. -/
def sliceFrom (info : List Nat) (off : Nat) : Option (List Nat) :=
  if off ≤ info.length then some (info.drop off) else none

/-- `provider_name()`: no special case for a zero offset. -/
def provider_name (info : List Nat) : Option (List Nat) :=
  (sliceFrom info (providerNameOffset info)).map parseNulUtf16

/-- `task_name()`: no special case for a zero offset. -/
def task_name (info : List Nat) : Option (List Nat) :=
  (sliceFrom info (taskNameOffset info)).map parseNulUtf16

/-- `opcode_name()`: returns the empty string when the offset is zero. -/
def opcode_name (info : List Nat) : Option (List Nat) :=
  if opcodeNameOffset info = 0 then some []
  else (sliceFrom info (opcodeNameOffset info)).map parseNulUtf16

inductive EtwErr where
  /-- `assert!(index <= self.property_count())` failure. -/
  | boundsAssert
  /-- `panic!()` when an OS TDH map query does not behave as expected. -/
  | osCallFail
  /-- `assert!(map_info.MapEntryValueType == ULONG)` failure. -/
  | valueTypeAssert
  deriving DecidableEq, Repr

structure PropertyMapInfo where
  isBitmap : Bool
  map : List (Nat × List Nat)
  deriving DecidableEq, Repr

/-- Modelled from the spec: `Property` of `tdh_types.rs` (not among the
sources) — name, type information from the descriptor, optional value
map. -/
structure EtwProperty where
  name : List Nat
  inType : Nat
  outType : Nat
  mapInfo : Option PropertyMapInfo
  deriving DecidableEq, Repr

/-- The i-th descriptor's byte offset: the one-element trailing array makes
it `sizeof(TRACE_EVENT_INFO) - sizeof(EVENT_PROPERTY_INFO) +
i * sizeof(EVENT_PROPERTY_INFO)`. -/
def descriptorOffset (i : Nat) : Nat :=
  i * eventPropertyInfoSize + (traceEventInfoSize - eventPropertyInfoSize)

/-- The `EVENT_MAP_INFO` entry loop: `EntryCount` entries of 8 bytes each
starting at byte 16 (`OutputOffset` then `Value`), each name read at its
`OutputOffset`. -/
def parseMapEntries (buffer : List Nat) : Nat → Nat → List (Nat × List Nat)
  | 0, _ => []
  | k+1, off =>
    (leU32At buffer (off + 4),
     parseNulUtf16 (buffer.drop (leU32At buffer off))) ::
    parseMapEntries buffer k (off + 8)

/-- The body of `property_map_info` after the bounds assertion, reading the
descriptor at byte offset `off`. The two-phase OS query
(`TdhGetEventMapInformation` probed with a null buffer, then called with
the allocated one) is abstracted as the oracle `osq`, which takes the
bytes at the map name offset and returns the filled buffer, or `none` for
any OS misbehaviour (both `panic!` sites). -/
def mapInfoBody (osq : List Nat → Option (List Nat)) (info : List Nat)
    (off : Nat) : Except EtwErr (Option PropertyMapInfo) :=
  if leU32At info (off + 12) ≠ 0 then
    match osq (info.drop (leU32At info (off + 12))) with
    | none => .error .osCallFail
    | some buffer =>
      if leU32At buffer 4 = 1 ∨ leU32At buffer 4 = 2 then
        if leU32At buffer 12 = 0 then
          .ok (some ⟨leU32At buffer 4 == 2,
            parseMapEntries buffer (leU32At buffer 8) 16⟩)
        else .error .valueTypeAssert
      else .ok none
  else .ok none

/-- `property_map_info(index)`: the bounds assertion, then the descriptor
read. -/
def property_map_info (osq : List Nat → Option (List Nat)) (info : List Nat)
    (index : Nat) : Except EtwErr (Option PropertyMapInfo) :=
  if index ≤ propertyCount info then mapInfoBody osq info (descriptorOffset index)
  else .error .boundsAssert

/-- The body of `property` after the bounds assertion: parse the descriptor
at byte offset `off`, the name at its `NameOffset`, and the value map. -/
def propertyBody (osq : List Nat → Option (List Nat)) (info : List Nat)
    (off : Nat) (index : Nat) : Except EtwErr EtwProperty :=
  match property_map_info osq info index with
  | .error e => .error e
  | .ok m =>
    .ok ⟨parseNulUtf16 (info.drop (leU32At info (off + 4))),
         leU16At info (off + 8), leU16At info (off + 10), m⟩

/-- `property(index)`: the bounds assertion, then the descriptor read. -/
def property (osq : List Nat → Option (List Nat)) (info : List Nat)
    (index : Nat) : Except EtwErr EtwProperty :=
  if index ≤ propertyCount info then
    propertyBody osq info (descriptorOffset index) index
  else .error .boundsAssert

theorem mapInfoBody_ne_bounds (osq : List Nat → Option (List Nat))
    (info : List Nat) (off : Nat) :
    mapInfoBody osq info off ≠ Except.error EtwErr.boundsAssert := by
  intro h
  rw [mapInfoBody] at h
  split at h
  · split at h
    · exact EtwErr.noConfusion (Except.error.inj h)
    · split at h
      · split at h
        · exact Except.noConfusion h
        · exact EtwErr.noConfusion (Except.error.inj h)
      · exact Except.noConfusion h
  · exact Except.noConfusion h

/-- C8: for every buffer, oracle and index `i`, `property(i)` and
`property_map_info(i)` are guarded by the assertion `index ≤
property_count`: the assertion fails (the call aborts before any
descriptor byte access) exactly when `i > property_count`, and when
`i ≤ property_count` both proceed to read the descriptor at byte offset
`header_size − descriptor_size + i · descriptor_size`. -/
theorem property_bounds_guard (osq : List Nat → Option (List Nat))
    (info : List Nat) (i : Nat) :
    (property osq info i = Except.error EtwErr.boundsAssert ↔
      propertyCount info < i) ∧
    (property_map_info osq info i = Except.error EtwErr.boundsAssert ↔
      propertyCount info < i) ∧
    (i ≤ propertyCount info →
      property osq info i = propertyBody osq info
        (traceEventInfoSize - eventPropertyInfoSize + i * eventPropertyInfoSize)
        i ∧
      property_map_info osq info i = mapInfoBody osq info
        (traceEventInfoSize - eventPropertyInfoSize +
          i * eventPropertyInfoSize)) := by
  have hoff : descriptorOffset i =
      traceEventInfoSize - eventPropertyInfoSize + i * eventPropertyInfoSize := by
    rw [descriptorOffset]
    omega
  have hmap_ne : mapInfoBody osq info (descriptorOffset i) ≠
      Except.error EtwErr.boundsAssert := mapInfoBody_ne_bounds osq info _
  have hbody_ne : i ≤ propertyCount info →
      propertyBody osq info (descriptorOffset i) i ≠
        Except.error EtwErr.boundsAssert := by
    intro hle h
    rw [propertyBody] at h
    split at h
    · rename_i e he
      rw [property_map_info, if_pos hle] at he
      rw [Except.error.inj h] at he
      exact hmap_ne he
    · exact Except.noConfusion h
  refine ⟨⟨fun h => ?_, fun h => ?_⟩, ⟨fun h => ?_, fun h => ?_⟩, fun hle => ?_⟩
  · by_contra hgt
    have hle : i ≤ propertyCount info := by omega
    rw [property, if_pos hle] at h
    exact hbody_ne hle h
  · rw [property, if_neg (by omega)]
  · by_contra hgt
    have hle : i ≤ propertyCount info := by omega
    rw [property_map_info, if_pos hle] at h
    exact hmap_ne h
  · rw [property_map_info, if_neg (by omega)]
  · constructor
    · rw [property, if_pos hle, hoff]
    · rw [property_map_info, if_pos hle, hoff]

/-- Witness for C8 at the all-zero 136-byte buffer (property count 0) and
a trivially failing oracle, at index 0 and index 1. -/
theorem property_bounds_guard_witness :
    ((property (fun _ => none) (List.replicate 136 0) 1 =
        Except.error EtwErr.boundsAssert ↔
      propertyCount (List.replicate 136 0) < 1) ∧
    (property_map_info (fun _ => none) (List.replicate 136 0) 1 =
        Except.error EtwErr.boundsAssert ↔
      propertyCount (List.replicate 136 0) < 1) ∧
    (1 ≤ propertyCount (List.replicate 136 0) →
      property (fun _ => none) (List.replicate 136 0) 1 =
        propertyBody (fun _ => none) (List.replicate 136 0)
          (traceEventInfoSize - eventPropertyInfoSize +
            1 * eventPropertyInfoSize) 1 ∧
      property_map_info (fun _ => none) (List.replicate 136 0) 1 =
        mapInfoBody (fun _ => none) (List.replicate 136 0)
          (traceEventInfoSize - eventPropertyInfoSize +
            1 * eventPropertyInfoSize))) :=
  property_bounds_guard (fun _ => none) (List.replicate 136 0) 1

/-- C9: when `OpcodeNameOffset` is zero, `opcode_name()` returns the empty
string; for a nonzero (in-bounds) offset it returns the UTF-16 string
starting at that byte offset, terminated at the first u16 zero. -/
theorem opcode_name_zero_offset (info : List Nat) :
    (opcodeNameOffset info = 0 → opcode_name info = some []) ∧
    (opcodeNameOffset info ≠ 0 → opcodeNameOffset info ≤ info.length →
      opcode_name info = some
        ((utf16Units (info.drop (opcodeNameOffset info))).takeWhile
          (fun u => u != 0))) := by
  constructor
  · intro h
    rw [opcode_name, if_pos h]
  · intro hne hle
    rw [opcode_name, if_neg hne, sliceFrom, if_pos hle, Option.map_some',
      parseNulUtf16_eq_takeWhile]

/-- Witness for C9: an all-zero buffer has opcode name offset 0 and empty
opcode name; a buffer with offset 80 pointing at UTF-16 `"A\0"` yields
`[65]`. -/
theorem opcode_name_zero_offset_witness :
    (opcode_name (List.replicate 136 0) = some []) ∧
    (opcode_name (List.replicate 72 0 ++ encU32 80 ++ List.replicate 4 0 ++
        [65, 0, 0, 0] ++ List.replicate 52 0) =
      some ((utf16Units ((List.replicate 72 0 ++ encU32 80 ++
        List.replicate 4 0 ++ [65, 0, 0, 0] ++ List.replicate 52 0).drop
          (opcodeNameOffset (List.replicate 72 0 ++ encU32 80 ++
            List.replicate 4 0 ++ [65, 0, 0, 0] ++
            List.replicate 52 0)))).takeWhile (fun u => u != 0))) :=
  ⟨(opcode_name_zero_offset (List.replicate 136 0)).1 (by decide),
   (opcode_name_zero_offset _).2 (by decide) (by decide)⟩

/-- C10 counterexample: on the all-zero 136-byte buffer the provider name
offset is zero and `provider_name()` does return the empty string, so
"does not return the empty string" fails as a universal statement. -/
theorem provider_name_zero_offset_counterexample :
    providerNameOffset (List.replicate 136 0) = 0 ∧
    provider_name (List.replicate 136 0) = some [] := by
  constructor <;> decide

/-- C10 amended: unlike `opcode_name`, `provider_name()` and `task_name()`
do not special-case a zero offset: when the offset field is zero they
parse a NUL-terminated UTF-16 string starting at byte offset 0 of the
buffer (over the provider GUID and header bytes); the result is the empty
string exactly when the leading u16 of the buffer is zero. -/
theorem provider_task_name_zero_offset (info : List Nat)
    (h2 : 2 ≤ info.length) :
    (providerNameOffset info = 0 →
      provider_name info =
        some ((utf16Units info).takeWhile (fun u => u != 0)) ∧
      (provider_name info = some [] ↔
        leVal (info.take 2) = 0)) ∧
    (taskNameOffset info = 0 →
      task_name info =
        some ((utf16Units info).takeWhile (fun u => u != 0))) := by
  have hparse : parseNulUtf16 info =
      (utf16Units info).takeWhile (fun u => u != 0) :=
    parseNulUtf16_eq_takeWhile info
  have hempty : parseNulUtf16 info = [] ↔ leVal (info.take 2) = 0 := by
    match info, h2 with
    | a :: b :: rest, _ =>
      rw [parseNulUtf16]
      by_cases h : a + 256 * b = 0
      · simp [h, List.take, leVal]
      · simp [h, List.take, leVal]
  constructor
  · intro h0
    constructor
    · rw [provider_name, h0, sliceFrom, if_pos (Nat.zero_le _),
        List.drop_zero, Option.map_some', hparse]
    · rw [provider_name, h0, sliceFrom, if_pos (Nat.zero_le _),
        List.drop_zero, Option.map_some']
      rw [← hempty]
      exact ⟨fun h => Option.some.inj h, fun h => by rw [h]⟩
  · intro h0
    rw [task_name, h0, sliceFrom, if_pos (Nat.zero_le _),
      List.drop_zero, Option.map_some', hparse]

/-- Witness for C10's amended theorem: a 136-byte buffer whose leading u16
is nonzero (GUID starting with byte 1) and whose name offsets are zero. -/
theorem provider_task_name_zero_offset_witness :
    (2 ≤ (1 :: List.replicate 135 0).length) ∧
    (providerNameOffset (1 :: List.replicate 135 0) = 0 →
      provider_name (1 :: List.replicate 135 0) =
        some ((utf16Units (1 :: List.replicate 135 0)).takeWhile
          (fun u => u != 0)) ∧
      (provider_name (1 :: List.replicate 135 0) = some [] ↔
        leVal ((1 :: List.replicate 135 0).take 2) = 0)) :=
  ⟨by decide,
   (provider_task_name_zero_offset (1 :: List.replicate 135 0) (by decide)).1⟩

end Samply
